import Mathlib

/-!
Formal model of the per-call realtime session orchestrator of the
Azure-OpenAI Realtime SIP voice-assistant service (src/src/server.ts), together
with the tool-dispatch boundary (src/src/tools.ts).

The TypeScript orchestrator is a single-threaded, run-to-completion event
machine: each inbound control-channel event is handled fully before the next
one.  We embed it shallowly:

* `CallSession` mirrors the mutable `CallSession` record of server.ts
  (the `ws` handle is replaced by an explicit output trace; the
  `pendingTurnTimer` handle is replaced by a Boolean "scheduled" flag plus an
  explicit timer-fire event; `Date.now()` is an explicit `now : Nat` input).
* Every handler of `realtimeEventHandlers` is translated one-for-one;
  purely observational effects (structured logging, the analytics aggregator)
  are not modelled — they never touch session state.
* Outbound `ws.send` messages, tool dispatches (`runTool` invocations), timer
  operations and entries into `maybeRespond` are recorded in a `Trace` list,
  in program order.
* The external pieces (`JSON.parse`, the awaited `runTool` outcome, config
  values `config.voice` and the greeting prompt text) are parameters in `Env`;
  a thrown tool error is an `Except.error`, and the `try/catch` of
  `fulfillToolCall` is the corresponding `match`, so the handler is total by
  construction (nothing escapes the event-handling boundary).
-/

/-- JSON values, as produced by `JSON.parse` and consumed by `JSON.stringify`. -/
inductive Json where
  | null : Json
  | bool (b : Bool) : Json
  | num (n : Int) : Json
  | str (s : String) : Json
  | arr (elems : List Json) : Json
  | obj (fields : List (String × Json)) : Json

mutual

/-- Serialization of a JSON value (models `JSON.stringify` on the values the
orchestrator feeds it). -/
def Json.render : Json → String
  | .null => "null"
  | .bool true => "true"
  | .bool false => "false"
  | .num n => toString n
  | .str s => "\"" ++ s ++ "\""
  | .arr elems => "[" ++ Json.renderList elems ++ "]"
  | .obj fields => "\x7b" ++ Json.renderFields fields ++ "\x7d"

/-- Comma-separated rendering of a JSON array body. -/
def Json.renderList : List Json → String
  | [] => ""
  | [x] => Json.render x
  | x :: y :: rest => Json.render x ++ "," ++ Json.renderList (y :: rest)

/-- Comma-separated rendering of a JSON object body. -/
def Json.renderFields : List (String × Json) → String
  | [] => ""
  | [(k, v)] => "\"" ++ k ++ "\":" ++ Json.render v
  | (k, v) :: kv :: rest =>
      "\"" ++ k ++ "\":" ++ Json.render v ++ "," ++ Json.renderFields (kv :: rest)

end

/-- JavaScript string truthiness for an optional string field: `undefined` and
`""` are falsy (`if (x)` guards in the source). -/
def truthy : Option String → Option String
  | some s => if s = "" then none else some s
  | none => none

/-- `needle` is a leading segment of `hay` (character lists). -/
def leadsWith : List Char → List Char → Bool
  | _, [] => true
  | [], _ :: _ => false
  | a :: hay, b :: needle => a = b && leadsWith hay needle

/-- Auxiliary scan for substring containment. -/
def hasSubAux (needle : List Char) : List Char → Bool
  | [] => leadsWith [] needle
  | c :: rest => leadsWith (c :: rest) needle || hasSubAux needle rest

/-- `String.includes` of JavaScript: `needle` occurs inside `hay`. -/
def strHasSub (hay needle : String) : Bool :=
  hasSubAux needle.data hay.data

/-- Association-list lookup (the `Map.get` of the source). -/
def getEntry (k : String) : List (String × α) → Option α
  | [] => none
  | (k', v) :: rest => if k' = k then some v else getEntry k rest

/-- Removal of a key (the `Map.delete` of the source; keys are unique in every
map the orchestrator builds, so removing all matches is the same operation). -/
def removeKey (k : String) : List (String × α) → List (String × α)
  | [] => []
  | (k', v) :: rest =>
      if k' = k then removeKey k rest else (k', v) :: removeKey k rest

/-- In-place update of the value stored at a key (mutation of a fetched entry,
as in `pending.argsBuffer += delta`). -/
def updateKey (k : String) (v : α) (l : List (String × α)) : List (String × α) :=
  l.map fun kv => if kv.1 = k then (k, v) else kv

/-- `Map.set`: overwrite in place when the key exists, else append (JS `Map`
iteration order is insertion order). -/
def mapSet (k : String) (v : α) (l : List (String × α)) : List (String × α) :=
  if (getEntry k l).isSome then updateKey k v l else l ++ [(k, v)]

/-- `Set.add`: append unless already present (insertion-ordered set). -/
def setInsert (x : String) (l : List String) : List String :=
  if x ∈ l then l else l ++ [x]

/-- `Set.delete`. -/
def setRemove (x : String) : List String → List String
  | [] => []
  | y :: rest => if y = x then setRemove x rest else y :: setRemove x rest

/-- A pending tool call: tool name plus the accumulating argument buffer
(`PendingToolCall` of server.ts). -/
structure PendingToolCall where
  name : String
  argsBuffer : String
deriving DecidableEq

/-- A response request handed to `maybeRespond` (`ResponseRequest` of
server.ts); absent optional fields are `false`. -/
structure ResponseRequest where
  instructions : String
  source : String
  outOfBand : Bool := false
  queueIfBlocked : Bool := false
deriving DecidableEq

/-- The per-call session state (`CallSession` of server.ts).  The `ws` handle
is replaced by the output trace; `pendingTurnTimer` is the Boolean
"a turn timer is scheduled". -/
structure CallSession where
  callId : String
  pendingTools : List (String × PendingToolCall) := []
  activeResponses : List String := []
  configured : Bool := false
  greeted : Bool := false
  toolsUnlocked : Bool := false
  responseGateUntil : Nat := 0
  pendingTurnTimer : Bool := false
  minGapMs : Nat := 500
  userSpeaking : Bool := false
  heardUser : Bool := false
  bargeGuardUntil : Nat := 0
  pendingFollowUps : List ResponseRequest := []
  responseTextBuffers : List (String × String) := []
  assistantTranscriptBuffers : List (String × String) := []
deriving DecidableEq

/-- The fresh session built in `attachSidebandWebSocket` (server.ts lines
1468-1484). -/
def initialSession (callId : String) : CallSession :=
  { callId := callId }

/-- The `item` sub-record of an inbound realtime event, projected to the
fields the handlers read. -/
structure ItemRec where
  id : Option String := none
  type : Option String := none
  name : Option String := none
  role : Option String := none
deriving DecidableEq

/-- An inbound realtime control-channel event, projected to the fields the
handlers read (`getString` of a missing or non-string field is `none`). -/
structure RTEvent where
  type : String
  response_id : Option String := none
  item : Option ItemRec := none
  item_id : Option String := none
  delta : Option String := none
  arguments : Option String := none
  call_id : Option String := none
  transcript : Option String := none
  errorCode : Option String := none
  errorParam : Option String := none
deriving DecidableEq

/-- Result of a tool handler (`ToolExecutionResult` of tools.ts). -/
structure ToolExecutionResult where
  output : Json
  followUpInstructions : Option String := none

/-- The session-configuration patches the orchestrator sends, one constructor
per `sendSessionUpdate` call site in server.ts. -/
inductive SessionPatch where
  | initialConfig (voice : String) : SessionPatch
  | toolChoiceAuto : SessionPatch
  | voiceRetry (voice : String) : SessionPatch
deriving DecidableEq

/-- Outbound control-channel messages (`session.ws.send` payloads). -/
inductive WsMsg where
  | sessionUpdate (patch : SessionPatch) : WsMsg
  | responseCreate (instructions : String) : WsMsg
  | responseCancel (responseId : String) : WsMsg
  | functionCallOutput (call_id : String) (output : Json) : WsMsg

/-- Observable steps of a handler run, in program order: a channel send, a
dispatch into `runTool`, timer bookkeeping, and each entry into
`maybeRespond` (a response request being issued). -/
inductive Trace where
  | send (msg : WsMsg) : Trace
  | dispatch (itemId : String) (name : String) (args : Json) : Trace
  | respondReq (r : ResponseRequest) : Trace
  | clearTurnTimer : Trace
  | scheduleTurnTimer : Trace

/-- External collaborators and configuration: `JSON.parse` (None = throw),
the awaited outcome of `runTool` (error = the handler or its argument
validation threw), `config.voice`, and the greeting prompt text. -/
structure Env where
  parseJson : String → Option Json
  runTool : String → Json → Except String ToolExecutionResult
  voice : String
  greetingPrompt : String

/-- Instructions of the one-time greeting request (ws open handler). -/
def greetingInstructions (env : Env) : String :=
  "Speak the following greeting verbatim with no additions: " ++ env.greetingPrompt

/-- Instructions of a debounced turn reply (`requestTurnResponse`). -/
def turnResponseInstructions : String :=
  "Please respond briefly and helpfully to the caller’s last statement."

/-- Instructions of the error-recovery follow-up after a tool failure. -/
def toolErrorInstructions : String :=
  "Apologize briefly, explain that the check failed, and offer to transfer to a human right away."

/-- The generic follow-up built when a tool result carries no
`followUpInstructions`. -/
def defaultToolFollowUp (name : String) (output : Json) : String :=
  "The " ++ name ++ " tool returned this result: " ++ Json.render output ++
    ". IMMEDIATELY speak this information to the caller now—do not wait for them to prompt you. Explain the result in natural, conversational language and offer what they should do next."

/-- Append a request to `pendingFollowUps` with `queueIfBlocked` forced on
(`enqueueFollowUp`). -/
def enqueueFollowUp (s : CallSession) (r : ResponseRequest) : CallSession :=
  { s with pendingFollowUps := s.pendingFollowUps ++ [{ r with queueIfBlocked := true }] }

/-- `maybeRespond`: gate a response request against the active-response guard
and the minimum-gap throttle; queue it when blocked and `queueIfBlocked` is
set, drop it when blocked otherwise, submit it when free. -/
def maybeRespond (now : Nat) (s : CallSession) (r : ResponseRequest) :
    CallSession × List Trace :=
  if s.activeResponses = [] then
    if now < s.responseGateUntil then
      if r.queueIfBlocked then (enqueueFollowUp s r, [Trace.respondReq r])
      else (s, [Trace.respondReq r])
    else
      ({ s with responseGateUntil := now + s.minGapMs },
        [Trace.respondReq r, Trace.send (WsMsg.responseCreate r.instructions)])
  else
    if r.queueIfBlocked then (enqueueFollowUp s r, [Trace.respondReq r])
    else (s, [Trace.respondReq r])

/-- `flushPendingFollowUps`: dequeue the front request (if any) and hand it
back to `maybeRespond`. -/
def flushPendingFollowUps (now : Nat) (s : CallSession) : CallSession × List Trace :=
  match s.pendingFollowUps with
  | [] => (s, [])
  | next :: rest => maybeRespond now { s with pendingFollowUps := rest } next

/-- `requestTurnResponse` (the debounced reply after the caller stops
speaking). -/
def requestTurnResponse (now : Nat) (s : CallSession) : CallSession × List Trace :=
  maybeRespond now s
    { instructions := turnResponseInstructions, source := "turn_response" }

/-- `cancelActiveResponses`: send one cancellation per active response id and
clear the set. -/
def cancelActiveResponses (s : CallSession) : CallSession × List Trace :=
  if s.activeResponses = [] then (s, [])
  else
    ({ s with activeResponses := [] },
      s.activeResponses.map fun rid => Trace.send (WsMsg.responseCancel rid))

/-- `unlockTools`: one-way switch of the tool-choice policy to `auto`. -/
def unlockTools (s : CallSession) : CallSession × List Trace :=
  if s.toolsUnlocked = true then (s, [])
  else
    ({ s with toolsUnlocked := true },
      [Trace.send (WsMsg.sessionUpdate SessionPatch.toolChoiceAuto)])

/-- `handleSpeechStarted`: mark speaking; inside the barge-guard window (tools
still locked) nothing else happens; otherwise cancel every active response
and clear a pending turn timer. -/
def handleSpeechStarted (now : Nat) (s : CallSession) : CallSession × List Trace :=
  let s1 := { s with userSpeaking := true }
  if s1.toolsUnlocked = false ∧ now < s1.bargeGuardUntil then (s1, [])
  else
    let p := cancelActiveResponses s1
    if p.1.pendingTurnTimer = true then
      ({ p.1 with pendingTurnTimer := false }, p.2 ++ [Trace.clearTurnTimer])
    else p

/-- `handleSpeechStopped`: on a valid stop (configured, was speaking, caller
has been heard) schedule the debounced turn-reply timer, replacing any
pending one. -/
def handleSpeechStopped (s : CallSession) : CallSession × List Trace :=
  if s.configured = true ∧ s.userSpeaking = true then
    let s1 := { s with userSpeaking := false }
    if s1.heardUser = true then
      let cleared := if s1.pendingTurnTimer = true then [Trace.clearTurnTimer] else []
      ({ s1 with pendingTurnTimer := true }, cleared ++ [Trace.scheduleTurnTimer])
    else (s1, [])
  else (s, [])

/-- The `setTimeout` callback scheduled by `handleSpeechStopped`: fire the
turn response if the timer is still pending. -/
def handleTurnTimerFire (now : Nat) (s : CallSession) : CallSession × List Trace :=
  if s.pendingTurnTimer = true then
    requestTurnResponse now { s with pendingTurnTimer := false }
  else (s, [])

/-- `updateResponseLifecycle`: `response.created` adds the id to
`activeResponses`; `response.completed` / `response.done` removes it (also
dropping the accumulated response-text buffer) and, when the set is empty
afterwards, flushes the follow-up queue. -/
def updateResponseLifecycle (now : Nat) (s : CallSession) (e : RTEvent)
    (isAdd : Bool) : CallSession × List Trace :=
  match truthy e.response_id with
  | none => (s, [])
  | some rid =>
    if isAdd = true then
      ({ s with activeResponses := setInsert rid s.activeResponses }, [])
    else
      let s1 := { s with responseTextBuffers := removeKey rid s.responseTextBuffers }
      let s2 := { s1 with activeResponses := setRemove rid s1.activeResponses }
      if s2.activeResponses = [] then flushPendingFollowUps now s2 else (s2, [])

/-- `registerFunctionCall`: when the AI announces a `function_call` output
item, refuse it while the caller has never spoken (cancel the owning response
when a response id is present, register nothing); otherwise create the
pending-tool entry with an empty argument buffer. -/
def registerFunctionCall (s : CallSession) (e : RTEvent) : CallSession × List Trace :=
  match e.item with
  | none => (s, [])
  | some item =>
    match item.type, truthy item.id, truthy item.name with
    | some "function_call", some itemId, some name =>
      if s.heardUser = false then
        match truthy e.response_id with
        | some rid =>
            ({ s with activeResponses := setRemove rid s.activeResponses },
              [Trace.send (WsMsg.responseCancel rid)])
        | none => (s, [])
      else
        ({ s with pendingTools := mapSet itemId { name := name, argsBuffer := "" } s.pendingTools },
          [])
    | _, _, _ => (s, [])

/-- `collectToolArgs`: append an argument-delta fragment to the pending item's
buffer; fragments for unknown items (or without a delta) are dropped. -/
def collectToolArgs (s : CallSession) (e : RTEvent) : CallSession × List Trace :=
  match truthy e.item_id with
  | none => (s, [])
  | some itemId =>
    match getEntry itemId s.pendingTools with
    | none => (s, [])
    | some pending =>
      match truthy e.delta with
      | none => (s, [])
      | some delta =>
        ({ s with pendingTools :=
            updateKey itemId { pending with argsBuffer := pending.argsBuffer ++ delta } s.pendingTools },
          [])

/-- Argument parsing of `fulfillToolCall` (server.ts lines 1971-1980): a
non-blank payload is parsed, with parse failure defaulting to the empty
object; a blank payload is the empty object. -/
def parseArgsPayload (p : String → Option Json) (payload : String) : Json :=
  if payload.trim.length > 0 then (p payload).getD (Json.obj []) else Json.obj []

/-- `fulfillToolCall`: on the arguments-done event, look up and remove the
pending entry, choose the event's complete `arguments` field over the
accumulated buffer, parse, dispatch `runTool`, and either return the result
plus a success follow-up, or (when the tool threw) a single error-recovery
follow-up.  Total: the `try/catch` of the source is the `match` on the
`runTool` outcome. -/
def fulfillToolCall (env : Env) (now : Nat) (s : CallSession) (e : RTEvent) :
    CallSession × List Trace :=
  match truthy e.item_id with
  | none => (s, [])
  | some itemId =>
    match getEntry itemId s.pendingTools with
    | none => (s, [])
    | some pending =>
      let s1 := { s with pendingTools := removeKey itemId s.pendingTools }
      let payload := e.arguments.getD pending.argsBuffer
      let parsedArgs := parseArgsPayload env.parseJson payload
      match env.runTool pending.name parsedArgs with
      | Except.ok result =>
        let outTr :=
          match truthy e.call_id with
          | some fc => [Trace.send (WsMsg.functionCallOutput fc result.output)]
          | none => []
        let followUp := result.followUpInstructions.getD
          (defaultToolFollowUp pending.name result.output)
        let p := maybeRespond now s1
          { instructions := followUp, source := "tool_follow_up_success",
            queueIfBlocked := true }
        (p.1, Trace.dispatch itemId pending.name parsedArgs :: (outTr ++ p.2))
      | Except.error _ =>
        let p := maybeRespond now s1
          { instructions := toolErrorInstructions, source := "tool_follow_up_error",
            queueIfBlocked := true }
        (p.1, Trace.dispatch itemId pending.name parsedArgs :: p.2)

/-- `logInputTranscript`: the caller's recognized speech — on the first one,
latch `heardUser`, clear the barge guard and unlock tools. -/
def logInputTranscript (s : CallSession) (e : RTEvent) : CallSession × List Trace :=
  match truthy e.transcript with
  | none => (s, [])
  | some _ =>
    if s.heardUser = false then
      unlockTools { s with heardUser := true, bargeGuardUntil := 0 }
    else (s, [])

/-- `handleConversationItem`: a conversation item with role `user` also
latches `heardUser`, clears the barge guard and unlocks tools. -/
def handleConversationItem (s : CallSession) (e : RTEvent) : CallSession × List Trace :=
  match e.item with
  | none => (s, [])
  | some item =>
    if item.role = some "user" ∧ s.heardUser = false then
      unlockTools { s with heardUser := true, bargeGuardUntil := 0 }
    else (s, [])

/-- `logResponseTextDelta`: accumulate assistant output text per response id
(observability buffer). -/
def logResponseTextDelta (s : CallSession) (e : RTEvent) : CallSession × List Trace :=
  match truthy e.delta, truthy e.response_id with
  | some delta, some rid =>
    let grown := (getEntry rid s.responseTextBuffers).getD "" ++ delta
    ({ s with responseTextBuffers := mapSet rid grown s.responseTextBuffers }, [])
  | _, _ => (s, [])

/-- `handleAssistantTranscriptDelta`: accumulate the assistant transcript per
item id. -/
def handleAssistantTranscriptDelta (s : CallSession) (e : RTEvent) :
    CallSession × List Trace :=
  match truthy e.delta, truthy e.item_id with
  | some delta, some itemId =>
    let grown := (getEntry itemId s.assistantTranscriptBuffers).getD "" ++ delta
    ({ s with assistantTranscriptBuffers := mapSet itemId grown s.assistantTranscriptBuffers }, [])
  | _, _ => (s, [])

/-- `handleAssistantTranscriptDone`: record and drop the accumulated
assistant transcript buffer. -/
def handleAssistantTranscriptDone (s : CallSession) (e : RTEvent) :
    CallSession × List Trace :=
  let itemId := truthy e.item_id
  let t := truthy (match itemId with
    | some i => getEntry i s.assistantTranscriptBuffers
    | none => e.transcript)
  match t with
  | none => (s, [])
  | some _ =>
    match itemId with
    | some i =>
        ({ s with assistantTranscriptBuffers := removeKey i s.assistantTranscriptBuffers }, [])
    | none => (s, [])

/-- `handleRealtimeError`: the voice-parameter compatibility shim — an
unknown/invalid-parameter error whose parameter name mentions `voice` causes
the session configuration to be re-sent with the alternate `voice` field.
Every other error is logged only. -/
def handleRealtimeError (env : Env) (s : CallSession) (e : RTEvent) :
    CallSession × List Trace :=
  if e.errorCode = some "unknown_parameter" ∨ e.errorCode = some "invalid_request_error" then
    match truthy e.errorParam with
    | some p =>
      if strHasSub p "voice" = true then
        (s, [Trace.send (WsMsg.sessionUpdate (SessionPatch.voiceRetry env.voice))])
      else (s, [])
    | none => (s, [])
  else (s, [])

/-- The `realtimeEventHandlers` dispatch table plus `routeRealtimeEvent`:
exact string match on the event type; unrecognized types are dropped. -/
def routeRealtimeEvent (env : Env) (now : Nat) (s : CallSession) (e : RTEvent) :
    CallSession × List Trace :=
  match e.type with
  | "response.created" => updateResponseLifecycle now s e true
  | "response.completed" => updateResponseLifecycle now s e false
  | "response.done" => updateResponseLifecycle now s e false
  | "response.output_text.delta" => logResponseTextDelta s e
  | "response.output_audio.delta" => (s, [])
  | "response.output_audio_transcript.delta" => handleAssistantTranscriptDelta s e
  | "response.output_audio_transcript.done" => handleAssistantTranscriptDone s e
  | "response.audio_transcript.delta" => handleAssistantTranscriptDelta s e
  | "response.audio_transcript.done" => handleAssistantTranscriptDone s e
  | "session.updated" => ({ s with configured := true }, [])
  | "conversation.item.added" => handleConversationItem s e
  | "conversation.item.done" => handleConversationItem s e
  | "conversation.item.created" => handleConversationItem s e
  | "conversation.item.retrieved" => handleConversationItem s e
  | "response.output_item.added" => registerFunctionCall s e
  | "response.function_call_arguments.delta" => collectToolArgs s e
  | "response.function_call_arguments.done" => fulfillToolCall env now s e
  | "conversation.item.input_audio_transcription.completed" => logInputTranscript s e
  | "conversation.item.input_audio_transcription.failed" => (s, [])
  | "conversation.item.audio_transcription.completed" => logInputTranscript s e
  | "conversation.item.audio_transcription.failed" => (s, [])
  | "input_audio_buffer.speech_started" => handleSpeechStarted now s
  | "input_audio_buffer.speech_stopped" => handleSpeechStopped s
  | "error" => handleRealtimeError env s e
  | _ => (s, [])

/-- The ws `open` handler of `attachSidebandWebSocket`: send the initial
session configuration, then request the one-time greeting (guarded by
`greeted`) and arm the 2000 ms barge-guard window. -/
def handleWsOpen (env : Env) (now : Nat) (s : CallSession) : CallSession × List Trace :=
  let cfgTr := [Trace.send (WsMsg.sessionUpdate (SessionPatch.initialConfig env.voice))]
  if s.greeted = false then
    let p := maybeRespond now s
      { instructions := greetingInstructions env, source := "greeting" }
    ({ p.1 with greeted := true, bargeGuardUntil := now + 2000 }, cfgTr ++ p.2)
  else (s, cfgTr)

/-- Events a single session processes: the channel opening, an inbound
realtime message, and a scheduled turn timer firing. -/
inductive SessionEvent where
  | wsOpen : SessionEvent
  | rtEvent (e : RTEvent) : SessionEvent
  | turnTimerFire : SessionEvent

/-- One run-to-completion handler invocation. -/
def sessionStep (env : Env) (now : Nat) (s : CallSession) :
    SessionEvent → CallSession × List Trace
  | SessionEvent.wsOpen => handleWsOpen env now s
  | SessionEvent.rtEvent e => routeRealtimeEvent env now s e
  | SessionEvent.turnTimerFire => handleTurnTimerFire now s

/-- Run a timestamped event sequence, returning the pre-state and emitted
trace of every step. -/
def runTrace (env : Env) : CallSession → List (Nat × SessionEvent) →
    List (CallSession × List Trace)
  | _, [] => []
  | s, (now, ev) :: rest =>
      (s, (sessionStep env now s ev).2) ::
        runTrace env (sessionStep env now s ev).1 rest

/-- Run a timestamped event sequence, returning the final state and the
concatenated trace. -/
def runSession (env : Env) : CallSession → List (Nat × SessionEvent) →
    CallSession × List Trace
  | s, [] => (s, [])
  | s, (now, ev) :: rest =>
      let p := sessionStep env now s ev
      let q := runSession env p.1 rest
      (q.1, p.2 ++ q.2)

/-- The `runTool` invocations in a trace. -/
def dispatchesOf (tr : List Trace) : List (String × String × Json) :=
  tr.filterMap fun t => match t with
    | Trace.dispatch i n a => some (i, n, a)
    | _ => none

/-- The response requests issued (entries into `maybeRespond`) in a trace. -/
def respondReqs (tr : List Trace) : List ResponseRequest :=
  tr.filterMap fun t => match t with
    | Trace.respondReq r => some r
    | _ => none

/-- The `response.create` messages sent in a trace, by instructions. -/
def sentCreates (tr : List Trace) : List String :=
  tr.filterMap fun t => match t with
    | Trace.send (WsMsg.responseCreate i) => some i
    | _ => none

/-- The `response.cancel` messages sent in a trace, by response id. -/
def cancelSends (tr : List Trace) : List String :=
  tr.filterMap fun t => match t with
    | Trace.send (WsMsg.responseCancel rid) => some rid
    | _ => none

/-- Number of voice-fallback configuration retries sent in a trace. -/
def voiceRetryCount (tr : List Trace) : Nat :=
  (tr.filterMap fun t => match t with
    | Trace.send (WsMsg.sessionUpdate (SessionPatch.voiceRetry v)) => some v
    | _ => none).length

/-- Number of greeting response requests issued in a trace. -/
def greetingReqCount (tr : List Trace) : Nat :=
  (respondReqs tr).countP fun r => r.source == "greeting"

/-- Number of `runTool` dispatches for a given item id in a trace. -/
def dispCountFor (i : String) (tr : List Trace) : Nat :=
  tr.countP fun t => match t with
    | Trace.dispatch i' _ _ => i' == i
    | _ => false

/-- Whether a session event is an announcement (registration) of the
function-call item `i`: a `response.output_item.added` whose item is a
`function_call` with truthy id `i` and a truthy name. -/
def isRegEventFor (i : String) : SessionEvent → Bool
  | SessionEvent.rtEvent e =>
      e.type == "response.output_item.added" &&
        (match e.item with
          | some item =>
              item.type == some "function_call" && truthy item.id == some i &&
                (truthy item.name).isSome
          | none => false)
  | _ => false

/-- Number of announcements of item `i` in an event sequence. -/
def regCountFor (i : String) (evts : List (Nat × SessionEvent)) : Nat :=
  evts.countP fun p => isRegEventFor i p.2

/-- 1 when item `i` has a pending-tool entry. -/
def pendingFlag (i : String) (s : CallSession) : Nat :=
  if (getEntry i s.pendingTools).isSome then 1 else 0

/-- The process-wide call registry (`sessions` map of server.ts). -/
def ServerState : Type := List (String × CallSession)

/-- Server-level events touching the registry: the channel-open of an
accepted call (`attachSidebandWebSocket`, which creates and registers the
session), an event delivered to one call's session, and the channel close. -/
inductive ServerEvent where
  | chanOpen (callId : String) : ServerEvent
  | sessionEvt (callId : String) (now : Nat) (ev : SessionEvent) : ServerEvent
  | chanClose (callId : String) : ServerEvent

/-- One server-level step: channel-open registers a fresh session, a session
event updates only that call's entry, channel-close deregisters it. -/
def serverStep (env : Env) (st : ServerState) : ServerEvent → ServerState × List Trace
  | ServerEvent.chanOpen c => (mapSet c (initialSession c) st, [])
  | ServerEvent.sessionEvt c now ev =>
    match getEntry c st with
    | some s =>
        let p := sessionStep env now s ev
        (updateKey c p.1 st, p.2)
    | none => (st, [])
  | ServerEvent.chanClose c => (removeKey c st, [])

/-- The call identifiers present in the registry. -/
def registryKeys (st : ServerState) : List String :=
  st.map Prod.fst

/-! ## Basic facts about the observables and the map/set helpers -/

@[simp]
theorem dispatchesOf_nil : dispatchesOf [] = [] := rfl

@[simp]
theorem dispatchesOf_append (a b : List Trace) :
    dispatchesOf (a ++ b) = dispatchesOf a ++ dispatchesOf b := by
  simp [dispatchesOf]

@[simp]
theorem respondReqs_nil : respondReqs [] = [] := rfl

@[simp]
theorem respondReqs_append (a b : List Trace) :
    respondReqs (a ++ b) = respondReqs a ++ respondReqs b := by
  simp [respondReqs]

@[simp]
theorem sentCreates_append (a b : List Trace) :
    sentCreates (a ++ b) = sentCreates a ++ sentCreates b := by
  simp [sentCreates]

@[simp]
theorem cancelSends_append (a b : List Trace) :
    cancelSends (a ++ b) = cancelSends a ++ cancelSends b := by
  simp [cancelSends]

@[simp]
theorem greetingReqCount_append (a b : List Trace) :
    greetingReqCount (a ++ b) = greetingReqCount a + greetingReqCount b := by
  simp [greetingReqCount, respondReqs, List.countP_append]

@[simp]
theorem dispCountFor_append (i : String) (a b : List Trace) :
    dispCountFor i (a ++ b) = dispCountFor i a + dispCountFor i b := by
  simp [dispCountFor, List.countP_append]

@[simp]
theorem dispatchesOf_cons_send (m : WsMsg) (tr : List Trace) :
    dispatchesOf (Trace.send m :: tr) = dispatchesOf tr := rfl

@[simp]
theorem dispatchesOf_cons_dispatch (i n : String) (a : Json) (tr : List Trace) :
    dispatchesOf (Trace.dispatch i n a :: tr) = (i, n, a) :: dispatchesOf tr := rfl

@[simp]
theorem dispatchesOf_cons_req (r : ResponseRequest) (tr : List Trace) :
    dispatchesOf (Trace.respondReq r :: tr) = dispatchesOf tr := rfl

@[simp]
theorem dispatchesOf_cons_clear (tr : List Trace) :
    dispatchesOf (Trace.clearTurnTimer :: tr) = dispatchesOf tr := rfl

@[simp]
theorem dispatchesOf_cons_sched (tr : List Trace) :
    dispatchesOf (Trace.scheduleTurnTimer :: tr) = dispatchesOf tr := rfl

@[simp]
theorem respondReqs_cons_send (m : WsMsg) (tr : List Trace) :
    respondReqs (Trace.send m :: tr) = respondReqs tr := rfl

@[simp]
theorem respondReqs_cons_dispatch (i n : String) (a : Json) (tr : List Trace) :
    respondReqs (Trace.dispatch i n a :: tr) = respondReqs tr := rfl

@[simp]
theorem respondReqs_cons_req (r : ResponseRequest) (tr : List Trace) :
    respondReqs (Trace.respondReq r :: tr) = r :: respondReqs tr := rfl

@[simp]
theorem respondReqs_cons_clear (tr : List Trace) :
    respondReqs (Trace.clearTurnTimer :: tr) = respondReqs tr := rfl

@[simp]
theorem respondReqs_cons_sched (tr : List Trace) :
    respondReqs (Trace.scheduleTurnTimer :: tr) = respondReqs tr := rfl

@[simp]
theorem sentCreates_cons_create (i : String) (tr : List Trace) :
    sentCreates (Trace.send (WsMsg.responseCreate i) :: tr) = i :: sentCreates tr := rfl

@[simp]
theorem sentCreates_cons_update (p : SessionPatch) (tr : List Trace) :
    sentCreates (Trace.send (WsMsg.sessionUpdate p) :: tr) = sentCreates tr := rfl

@[simp]
theorem sentCreates_cons_cancel (rid : String) (tr : List Trace) :
    sentCreates (Trace.send (WsMsg.responseCancel rid) :: tr) = sentCreates tr := rfl

@[simp]
theorem sentCreates_cons_fco (c : String) (o : Json) (tr : List Trace) :
    sentCreates (Trace.send (WsMsg.functionCallOutput c o) :: tr) = sentCreates tr := rfl

@[simp]
theorem sentCreates_cons_dispatch (i n : String) (a : Json) (tr : List Trace) :
    sentCreates (Trace.dispatch i n a :: tr) = sentCreates tr := rfl

@[simp]
theorem sentCreates_cons_req (r : ResponseRequest) (tr : List Trace) :
    sentCreates (Trace.respondReq r :: tr) = sentCreates tr := rfl

@[simp]
theorem sentCreates_cons_clear (tr : List Trace) :
    sentCreates (Trace.clearTurnTimer :: tr) = sentCreates tr := rfl

@[simp]
theorem sentCreates_cons_sched (tr : List Trace) :
    sentCreates (Trace.scheduleTurnTimer :: tr) = sentCreates tr := rfl

@[simp]
theorem sentCreates_nil : sentCreates [] = [] := rfl

@[simp]
theorem cancelSends_nil : cancelSends [] = [] := rfl

theorem cancelSends_cancelList (l : List String) :
    cancelSends (l.map fun rid => Trace.send (WsMsg.responseCancel rid)) = l := by
  induction l with
  | nil => rfl
  | cons a t ih => simpa [cancelSends] using ih

theorem dispatchesOf_cancelList (l : List String) :
    dispatchesOf (l.map fun rid => Trace.send (WsMsg.responseCancel rid)) = [] := by
  induction l with
  | nil => rfl
  | cons a t ih => simpa [dispatchesOf] using ih

theorem respondReqs_cancelList (l : List String) :
    respondReqs (l.map fun rid => Trace.send (WsMsg.responseCancel rid)) = [] := by
  induction l with
  | nil => rfl
  | cons a t ih => simpa [respondReqs] using ih

theorem getEntry_removeKey_self (k : String) (l : List (String × α)) :
    getEntry k (removeKey k l) = none := by
  induction l with
  | nil => rfl
  | cons kv rest ih =>
    by_cases h : kv.1 = k <;> simp [removeKey, getEntry, h, ih]

theorem getEntry_removeKey_ne (k j : String) (l : List (String × α)) (h : j ≠ k) :
    getEntry j (removeKey k l) = getEntry j l := by
  have hkj : ¬k = j := fun hh => h hh.symm
  induction l with
  | nil => rfl
  | cons kv rest ih =>
    by_cases hk : kv.1 = k
    · simp [removeKey, getEntry, hk, hkj, ih]
    · by_cases hj : kv.1 = j <;> simp [removeKey, getEntry, hk, hj, h, hkj, ih]

theorem getEntry_append (k : String) (a b : List (String × α)) :
    getEntry k (a ++ b) =
      match getEntry k a with
      | some v => some v
      | none => getEntry k b := by
  induction a with
  | nil => simp [getEntry]
  | cons kv rest ih =>
    by_cases h : kv.1 = k <;> simp [getEntry, h, ih]

theorem getEntry_updateKey_self (k : String) (v : α) (l : List (String × α)) :
    getEntry k (updateKey k v l) = (getEntry k l).map fun _ => v := by
  induction l with
  | nil => rfl
  | cons kv rest ih =>
    simp only [updateKey, List.map_cons] at ih ⊢
    by_cases h : kv.1 = k
    · rw [if_pos h]
      simp [getEntry, h]
    · rw [if_neg h]
      simp [getEntry, h, ih]

theorem getEntry_updateKey_ne (k j : String) (v : α) (l : List (String × α)) (h : j ≠ k) :
    getEntry j (updateKey k v l) = getEntry j l := by
  have hkj : ¬k = j := fun hh => h hh.symm
  induction l with
  | nil => rfl
  | cons kv rest ih =>
    simp only [updateKey, List.map_cons] at ih ⊢
    by_cases hk : kv.1 = k
    · rw [if_pos hk]
      have h1 : ¬kv.1 = j := by rw [hk]; exact hkj
      simp [getEntry, hkj, h1, ih]
    · rw [if_neg hk]
      by_cases hj : kv.1 = j <;> simp [getEntry, hj, ih]

theorem getEntry_mapSet_self (k : String) (v : α) (l : List (String × α)) :
    getEntry k (mapSet k v l) = some v := by
  unfold mapSet
  split
  · next h =>
    rw [getEntry_updateKey_self]
    cases hv : getEntry k l with
    | none => rw [hv] at h; simp at h
    | some w => simp
  · rw [getEntry_append]
    cases hv : getEntry k l with
    | none => simp [getEntry]
    | some w => next h => rw [hv] at h; simp at h

theorem getEntry_mapSet_ne (k j : String) (v : α) (l : List (String × α)) (h : j ≠ k) :
    getEntry j (mapSet k v l) = getEntry j l := by
  have hkj : ¬k = j := fun hh => h hh.symm
  unfold mapSet
  split
  · exact getEntry_updateKey_ne k j v l h
  · rw [getEntry_append]
    cases hv : getEntry j l with
    | none => simp [getEntry, hkj]
    | some w => simp

/-! ## Facts about `maybeRespond` and `cancelActiveResponses` -/

theorem maybeRespond_state_facts (now : Nat) (s : CallSession) (r : ResponseRequest) :
    (maybeRespond now s r).1.pendingTools = s.pendingTools ∧
    (maybeRespond now s r).1.heardUser = s.heardUser ∧
    (maybeRespond now s r).1.greeted = s.greeted ∧
    (maybeRespond now s r).1.activeResponses = s.activeResponses ∧
    dispatchesOf (maybeRespond now s r).2 = [] ∧
    respondReqs (maybeRespond now s r).2 = [r] := by
  unfold maybeRespond enqueueFollowUp
  split
  · split
    · split <;> simp [dispatchesOf, respondReqs]
    · simp [dispatchesOf, respondReqs]
  · split <;> simp [dispatchesOf, respondReqs]

theorem maybeRespond_queue_cases (now : Nat) (s : CallSession) (r : ResponseRequest) :
    (maybeRespond now s r).1.pendingFollowUps = s.pendingFollowUps ∨
    (maybeRespond now s r).1.pendingFollowUps =
      s.pendingFollowUps ++ [{ r with queueIfBlocked := true }] := by
  unfold maybeRespond enqueueFollowUp
  split
  · split
    · split
      · right; rfl
      · left; rfl
    · left; rfl
  · split
    · right; rfl
    · left; rfl

theorem maybeRespond_queue_of_unqueued (now : Nat) (s : CallSession) (r : ResponseRequest)
    (h : r.queueIfBlocked = false) :
    (maybeRespond now s r).1.pendingFollowUps = s.pendingFollowUps := by
  unfold maybeRespond
  split
  · split
    · split
      · next hq => rw [h] at hq; cases hq
      · rfl
    · rfl
  · split
    · next hq => rw [h] at hq; cases hq
    · rfl

theorem maybeRespond_free (now : Nat) (s : CallSession) (r : ResponseRequest)
    (h1 : s.activeResponses = []) (h2 : s.responseGateUntil ≤ now) :
    maybeRespond now s r =
      ({ s with responseGateUntil := now + s.minGapMs },
        [Trace.respondReq r, Trace.send (WsMsg.responseCreate r.instructions)]) := by
  unfold maybeRespond
  simp [h1, Nat.not_lt.mpr h2]

theorem maybeRespond_gated (now : Nat) (s : CallSession) (r : ResponseRequest)
    (h1 : s.activeResponses = []) (h2 : now < s.responseGateUntil)
    (h3 : r.queueIfBlocked = true) :
    maybeRespond now s r = (enqueueFollowUp s r, [Trace.respondReq r]) := by
  unfold maybeRespond
  simp [h1, h2, h3]

theorem cancelActiveResponses_active (s : CallSession) :
    (cancelActiveResponses s).1.activeResponses = [] := by
  unfold cancelActiveResponses
  split
  · next h => simpa using h
  · rfl

theorem cancelActiveResponses_sends (s : CallSession) :
    cancelSends (cancelActiveResponses s).2 = s.activeResponses := by
  unfold cancelActiveResponses
  split
  · next h => simp [h, cancelSends]
  · simp [cancelSends_cancelList]

/-! ## Claim C2 — barge-in cancels every active response exactly once -/

/-- C2: whenever speech-started is handled while `activeResponses` is
non-empty and the barge guard does not apply (tools unlocked, or the guard
timestamp expired), exactly one cancellation message is sent per response id
in `activeResponses` (and none for any other id), and `activeResponses` is
empty immediately after the handler returns. -/
theorem c2_barge_in_cancels_each_active_response_once
    (now : Nat) (s : CallSession)
    (hGuard : s.toolsUnlocked = true ∨ s.bargeGuardUntil ≤ now)
    (hNe : s.activeResponses ≠ [])
    (hNd : s.activeResponses.Nodup) :
    (handleSpeechStarted now s).1.activeResponses = [] ∧
    cancelSends (handleSpeechStarted now s).2 = s.activeResponses ∧
    (∀ rid ∈ s.activeResponses,
      (cancelSends (handleSpeechStarted now s).2).count rid = 1) ∧
    (∀ rid, rid ∉ s.activeResponses →
      (cancelSends (handleSpeechStarted now s).2).count rid = 0) := by
  have hGuard' : ¬(s.toolsUnlocked = false ∧ now < s.bargeGuardUntil) := by
    rcases hGuard with h | h
    · rintro ⟨h1, -⟩; rw [h] at h1; cases h1
    · rintro ⟨-, h2⟩; exact absurd h2 (Nat.not_lt.mpr h)
  have hmain : (handleSpeechStarted now s).1.activeResponses = [] ∧
      cancelSends (handleSpeechStarted now s).2 = s.activeResponses := by
    simp only [handleSpeechStarted]
    split
    · next hcond => exact absurd ⟨hcond.1, hcond.2⟩ hGuard'
    · split
      · constructor
        · exact cancelActiveResponses_active { s with userSpeaking := true }
        · rw [cancelSends_append]
          have h2 := cancelActiveResponses_sends { s with userSpeaking := true }
          simpa [cancelSends] using h2
      · exact ⟨cancelActiveResponses_active { s with userSpeaking := true },
          cancelActiveResponses_sends { s with userSpeaking := true }⟩
  refine ⟨hmain.1, hmain.2, ?_, ?_⟩
  · intro rid hrid
    rw [hmain.2]
    exact List.count_eq_one_of_mem hNd hrid
  · intro rid hrid
    rw [hmain.2]
    exact List.count_eq_zero.mpr hrid

/-- Concrete session for the C2 witness: tools unlocked, two active
responses. -/
def exC2 : CallSession :=
  { initialSession "w2" with toolsUnlocked := true, activeResponses := ["r1", "r2"] }

/-- C2 witness: a concrete guard-expired barge-in with two active
responses. -/
theorem c2_witness :
    (handleSpeechStarted 2500 exC2).1.activeResponses = [] ∧
    (cancelSends (handleSpeechStarted 2500 exC2).2).count "r1" = 1 := by
  have h := c2_barge_in_cancels_each_active_response_once 2500 exC2
    (Or.inl rfl) (by decide) (by decide)
  exact ⟨h.1, h.2.2.1 "r1" (by decide)⟩

/-! ## Claim C7 — speech-started inside the barge-guard window -/

/-- Concrete session for the C7 counterexample: greeting phase (tools locked,
guard armed until 2000), one active response, a scheduled turn timer, caller
not currently marked speaking. -/
def exC7 : CallSession :=
  { initialSession "cex7" with
      activeResponses := ["r1"]
      bargeGuardUntil := 2000
      pendingTurnTimer := true }

/-- C7 counterexample: a speech-started event 500 ms into the 2000 ms barge
guard sends nothing and cancels nothing, but it does change session state —
`userSpeaking` is set before the guard check, so the claim's "no session
state changes" part is false. -/
theorem c7_counterexample_user_speaking_flag :
    handleSpeechStarted 500 exC7 = ({ exC7 with userSpeaking := true }, []) ∧
    (handleSpeechStarted 500 exC7).1 ≠ exC7 := by
  refine ⟨rfl, ?_⟩
  decide

/-- C7 (amended): a speech-started event while tools are locked and the
current time is within `bargeGuardUntil` sends no message (in particular no
cancellation), removes no active response, and does not cancel the pending
turn timer; all session state is unchanged except the transient
`userSpeaking` flag, which is set before the guard check. -/
theorem c7_barge_guard_ignores_event_amended
    (now : Nat) (s : CallSession)
    (hLocked : s.toolsUnlocked = false) (hWin : now < s.bargeGuardUntil) :
    handleSpeechStarted now s = ({ s with userSpeaking := true }, []) := by
  unfold handleSpeechStarted
  simp [hLocked, hWin]

/-- C7 witness for the amended theorem, at the spec's Scenario C timing
(event at 500 ms, guard until 2000 ms). -/
theorem c7_witness :
    handleSpeechStarted 500 exC7 = ({ exC7 with userSpeaking := true }, []) :=
  c7_barge_guard_ignores_event_amended 500 exC7 rfl (by decide)

/-! ## Claim C8 — the voice-parameter retry shim -/

/-- Environment for concrete runs: a parser that always fails, two stub tools
`toolA`/`toolB` with explicit follow-ups, and fixed config strings. -/
def env0 : Env :=
  { parseJson := fun _ => none,
    runTool := fun n _ =>
      if n = "toolA" then
        Except.ok { output := Json.obj [], followUpInstructions := some "FOLLOW_A" }
      else if n = "toolB" then
        Except.ok { output := Json.obj [], followUpInstructions := some "FOLLOW_B" }
      else Except.error "unsupported",
    voice := "alloy",
    greetingPrompt := "Hello caller" }

/-- A provider error event rejecting the voice parameter. -/
def eVoiceErr : RTEvent :=
  { type := "error", errorCode := some "unknown_parameter",
    errorParam := some "audio.output.voice" }

/-- C8 counterexample: two successive matching voice-parameter error events
produce two retry configuration messages — the code has no once-only guard,
so "no additional retry configuration message is ever sent" after a failed
retry is false. -/
theorem c8_counterexample_retry_not_once :
    voiceRetryCount (runSession env0 (initialSession "c8")
      [(0, SessionEvent.rtEvent eVoiceErr), (1, SessionEvent.rtEvent eVoiceErr)]).2 = 2 := by
  decide

/-- C8 (amended): the voice-parameter compatibility shim is applied per
event, not at most once per session: every provider error event whose code is
`unknown_parameter` or `invalid_request_error` and whose parameter name
mentions `voice` causes the alternate-field configuration to be (re-)sent,
with no other state change; a failing retry that surfaces another matching
error therefore triggers a further retry message. -/
theorem c8_voice_retry_per_event_amended
    (env : Env) (s : CallSession) (e : RTEvent) (p : String)
    (hCode : e.errorCode = some "unknown_parameter" ∨
      e.errorCode = some "invalid_request_error")
    (hParam : truthy e.errorParam = some p)
    (hVoice : strHasSub p "voice" = true) :
    handleRealtimeError env s e =
      (s, [Trace.send (WsMsg.sessionUpdate (SessionPatch.voiceRetry env.voice))]) := by
  unfold handleRealtimeError
  rw [if_pos hCode, hParam]
  simp [hVoice]

/-- C8 witness for the amended theorem at a concrete matching error event. -/
theorem c8_witness :
    handleRealtimeError env0 (initialSession "c8w") eVoiceErr =
      (initialSession "c8w",
        [Trace.send (WsMsg.sessionUpdate (SessionPatch.voiceRetry "alloy"))]) :=
  c8_voice_retry_per_event_amended env0 (initialSession "c8w") eVoiceErr
    "audio.output.voice" (Or.inl rfl) rfl (by decide)

/-! ## Claim C4 — a throwing tool yields exactly one error-recovery follow-up -/

/-- The error-recovery follow-up request built in the `catch` branch of
`fulfillToolCall`. -/
def toolErrorRequest : ResponseRequest :=
  { instructions := toolErrorInstructions, source := "tool_follow_up_error",
    queueIfBlocked := true }

/-- C4: when a tool-call completion's dispatch throws (the `runTool` outcome
is an error — covering unknown tools, argument-validation failures and
handler exceptions), exactly one follow-up response request is issued, it is
the error-recovery request (source `tool_follow_up_error`, `queueIfBlocked`
set), and no raw error escapes the handler: `fulfillToolCall` still consumes
the pending entry and returns normally, its `try/catch` being the `match` on
the dispatch outcome (the model is total by construction). -/
theorem c4_tool_error_single_follow_up
    (env : Env) (now : Nat) (s : CallSession) (e : RTEvent)
    (itemId : String) (pending : PendingToolCall) (msg : String)
    (hItem : truthy e.item_id = some itemId)
    (hPending : getEntry itemId s.pendingTools = some pending)
    (hThrow : env.runTool pending.name
        (parseArgsPayload env.parseJson (e.arguments.getD pending.argsBuffer)) =
      Except.error msg) :
    respondReqs (fulfillToolCall env now s e).2 = [toolErrorRequest] ∧
    (fulfillToolCall env now s e).1.pendingTools = removeKey itemId s.pendingTools := by
  have hm := maybeRespond_state_facts now
    { s with pendingTools := removeKey itemId s.pendingTools } toolErrorRequest
  simp only [fulfillToolCall, hItem, hPending, hThrow]
  constructor
  · have h5 := hm.2.2.2.2.2
    simpa [respondReqs, toolErrorRequest] using h5
  · have h1 := hm.1
    simpa [toolErrorRequest] using h1

/-- Concrete session for the C4 witness: one pending tool call whose name no
tool bears, so dispatch throws `Unsupported tool`. -/
def exC4 : CallSession :=
  { initialSession "w4" with pendingTools := [("i9", { name := "nope", argsBuffer := "" })] }

/-- The arguments-done event completing the C4 witness call. -/
def eC4 : RTEvent :=
  { type := "response.function_call_arguments.done", item_id := some "i9" }

/-- C4 witness: the unknown-tool failure yields exactly the error-recovery
request. -/
theorem c4_witness :
    respondReqs (fulfillToolCall env0 7 exC4 eC4).2 = [toolErrorRequest] ∧
    (fulfillToolCall env0 7 exC4 eC4).1.pendingTools = removeKey "i9" exC4.pendingTools :=
  c4_tool_error_single_follow_up env0 7 exC4 eC4 "i9"
    { name := "nope", argsBuffer := "" } "unsupported" rfl rfl (by rfl)

/-! ## Claim C5 — argument streaming, payload precedence and parse fallback -/

theorem dispatchesOf_maybeRespond (now : Nat) (s : CallSession) (r : ResponseRequest) :
    dispatchesOf (maybeRespond now s r).2 = [] :=
  (maybeRespond_state_facts now s r).2.2.2.2.1

theorem respondReqs_maybeRespond (now : Nat) (s : CallSession) (r : ResponseRequest) :
    respondReqs (maybeRespond now s r).2 = [r] :=
  (maybeRespond_state_facts now s r).2.2.2.2.2

/-- C5: (i) each argument-delta event appends its fragment to the pending
item's buffer; (ii) deltas keyed to an item with no pending entry are dropped
without any state change or output; (iii) on completion the dispatched
arguments are parsed from the event's complete `arguments` field when
present, otherwise from the accumulated buffer (`Option.getD`); and (iv) when
parsing the chosen payload fails the dispatcher receives the empty structure
instead of the turn failing. -/
theorem c5_tool_args_accumulation_and_parse_fallback :
    (∀ (s : CallSession) (e : RTEvent) (itemId : String) (pending : PendingToolCall)
      (delta : String),
      truthy e.item_id = some itemId →
      getEntry itemId s.pendingTools = some pending →
      truthy e.delta = some delta →
      collectToolArgs s e =
        ({ s with pendingTools :=
            updateKey itemId { pending with argsBuffer := pending.argsBuffer ++ delta } s.pendingTools },
          [])) ∧
    (∀ (s : CallSession) (e : RTEvent) (itemId : String),
      truthy e.item_id = some itemId →
      getEntry itemId s.pendingTools = none →
      collectToolArgs s e = (s, [])) ∧
    (∀ (env : Env) (now : Nat) (s : CallSession) (e : RTEvent) (itemId : String)
      (pending : PendingToolCall),
      truthy e.item_id = some itemId →
      getEntry itemId s.pendingTools = some pending →
      dispatchesOf (fulfillToolCall env now s e).2 =
        [(itemId, pending.name,
          parseArgsPayload env.parseJson (e.arguments.getD pending.argsBuffer))]) ∧
    (∀ (p : String → Option Json) (payload : String),
      p payload = none → parseArgsPayload p payload = Json.obj []) := by
  refine ⟨?_, ?_, ?_, ?_⟩
  · intro s e itemId pending delta hItem hPending hDelta
    simp only [collectToolArgs, hItem, hPending, hDelta]
  · intro s e itemId hItem hPending
    simp only [collectToolArgs, hItem, hPending]
  · intro env now s e itemId pending hItem hPending
    simp only [fulfillToolCall, hItem, hPending]
    cases hrt : env.runTool pending.name
        (parseArgsPayload env.parseJson (e.arguments.getD pending.argsBuffer)) with
    | ok result =>
      cases hcid : truthy e.call_id <;>
        simp [dispatchesOf_maybeRespond]
    | error msg =>
      simp [dispatchesOf_maybeRespond]
  · intro p payload hFail
    unfold parseArgsPayload
    rw [hFail]
    split <;> rfl

/-- Pending-tool map for the C5 witness: one registered call with a partial
argument buffer. -/
def exC5pending : List (String × PendingToolCall) :=
  [("i1", { name := "lookup_order", argsBuffer := "ab" })]

/-- Session for the C5 witness. -/
def exC5 : CallSession :=
  { initialSession "w5" with pendingTools := exC5pending }

/-- Argument-delta event for the C5 witness. -/
def eC5 : RTEvent :=
  { type := "response.function_call_arguments.delta", item_id := some "i1", delta := some "cd" }

/-- C5 witness: the delta is appended to the buffer, and a failing parse
yields the empty object. -/
theorem c5_witness :
    collectToolArgs exC5 eC5 =
      ({ exC5 with pendingTools := updateKey "i1" ⟨"lookup_order", "abcd"⟩ exC5.pendingTools }, []) ∧
    parseArgsPayload env0.parseJson "not json" = Json.obj [] := by
  constructor
  · exact c5_tool_args_accumulation_and_parse_fallback.1 exC5 eC5
      "i1" ⟨"lookup_order", "ab"⟩ "cd" rfl rfl rfl
  · exact c5_tool_args_accumulation_and_parse_fallback.2.2.2 env0.parseJson "not json" rfl

/-! ## Claim C3 — follow-up queue: flush on drain, and release order -/

/-- Function-call item announcement used in the C3 counterexample run. -/
def itemA : ItemRec := { id := some "i1", type := some "function_call", name := some "toolA" }

/-- Second function-call item of the C3 counterexample run. -/
def itemB : ItemRec := { id := some "i2", type := some "function_call", name := some "toolB" }

/-- C3 counterexample run: greeting submitted at t=0 (gate until 500); the
greeting response `R1` becomes active; the caller speaks; two tool calls
complete while `R1` is active, queueing follow-ups A then B; `R1` completes
at t=100 (gate still closed), so the flushed head A is re-appended behind B;
a turn reply is submitted at t=850; its response `R2` completes at t=1400
(gate open), releasing B while A is still queued. -/
def evC3 : List (Nat × SessionEvent) :=
  [ (0, SessionEvent.wsOpen),
    (0, SessionEvent.rtEvent { type := "response.created", response_id := some "R1" }),
    (5, SessionEvent.rtEvent { type := "session.updated" }),
    (10, SessionEvent.rtEvent { type := "conversation.item.added", item := some { role := some "user" } }),
    (20, SessionEvent.rtEvent { type := "response.output_item.added", item := some itemA }),
    (25, SessionEvent.rtEvent { type := "response.output_item.added", item := some itemB }),
    (30, SessionEvent.rtEvent { type := "response.function_call_arguments.done", item_id := some "i1" }),
    (35, SessionEvent.rtEvent { type := "response.function_call_arguments.done", item_id := some "i2" }),
    (100, SessionEvent.rtEvent { type := "response.done", response_id := some "R1" }),
    (600, SessionEvent.rtEvent { type := "input_audio_buffer.speech_started" }),
    (650, SessionEvent.rtEvent { type := "input_audio_buffer.speech_stopped" }),
    (850, SessionEvent.turnTimerFire),
    (860, SessionEvent.rtEvent { type := "response.created", response_id := some "R2" }),
    (1400, SessionEvent.rtEvent { type := "response.done", response_id := some "R2" }) ]

/-- C3 counterexample: queued requests are NOT released first-queued-first-
released across the run.  Before the t=100 drain the queue is
[FOLLOW_A, FOLLOW_B] (A queued first); over the whole run the only released
follow-up is FOLLOW_B, and FOLLOW_A is still queued at the end — the
gate-blocked flush re-appended the front request behind the younger one. -/
theorem c3_counterexample_fifo_violated :
    ((runTrace env0 (initialSession "call-1") evC3)[8]?).map
        (fun p => p.1.pendingFollowUps.map fun r => r.instructions) =
      some ["FOLLOW_A", "FOLLOW_B"] ∧
    sentCreates (runSession env0 (initialSession "call-1") evC3).2 =
      [greetingInstructions env0, turnResponseInstructions, "FOLLOW_B"] ∧
    (runSession env0 (initialSession "call-1") evC3).1.pendingFollowUps.map
        (fun r => r.instructions) = ["FOLLOW_A"] := by
  refine ⟨?_, ?_, ?_⟩ <;> decide

/-- C3 (amended): when `activeResponses` transitions to empty on a
completed/done event, the front of `pendingFollowUps` (if any) is dequeued
and handed to `maybeRespond`; if the minimum-gap gate is open it is submitted
(`response.create` sent), but if the gate still blocks, the dequeued front is
re-appended at the BACK of the queue — so release order is FIFO only among
gate-open flushes, not across the whole run. -/
theorem c3_flush_front_and_gate_amended :
    (∀ (now : Nat) (s : CallSession) (e : RTEvent) (rid : String),
      truthy e.response_id = some rid →
      s.activeResponses = [rid] →
      updateResponseLifecycle now s e false =
        flushPendingFollowUps now
          { s with responseTextBuffers := removeKey rid s.responseTextBuffers, activeResponses := [] }) ∧
    (∀ (now : Nat) (s : CallSession) (r : ResponseRequest) (rest : List ResponseRequest),
      s.pendingFollowUps = r :: rest →
      r.queueIfBlocked = true →
      s.activeResponses = [] →
      respondReqs (flushPendingFollowUps now s).2 = [r] ∧
      ((s.responseGateUntil ≤ now ∧
          (flushPendingFollowUps now s).1.pendingFollowUps = rest ∧
          sentCreates (flushPendingFollowUps now s).2 = [r.instructions]) ∨
        (now < s.responseGateUntil ∧
          (flushPendingFollowUps now s).1.pendingFollowUps = rest ++ [r] ∧
          sentCreates (flushPendingFollowUps now s).2 = []))) := by
  constructor
  · intro now s e rid hRid hActive
    simp only [updateResponseLifecycle, hRid]
    have h1 : setRemove rid
        ({ s with responseTextBuffers := removeKey rid s.responseTextBuffers } : CallSession).activeResponses = [] := by
      simp [hActive, setRemove]
    simp [h1]
  · intro now s r rest hQ hq hA
    have hre : ({ r with queueIfBlocked := true } : ResponseRequest) = r := by
      cases r; simp_all
    constructor
    · simp only [flushPendingFollowUps, hQ]
      exact respondReqs_maybeRespond now { s with pendingFollowUps := rest } r
    · rcases Nat.lt_or_ge now s.responseGateUntil with hlt | hge
      · right
        refine ⟨hlt, ?_, ?_⟩
        · simp only [flushPendingFollowUps, hQ]
          rw [maybeRespond_gated now { s with pendingFollowUps := rest } r hA hlt hq]
          simp [enqueueFollowUp, hre]
        · simp only [flushPendingFollowUps, hQ]
          rw [maybeRespond_gated now { s with pendingFollowUps := rest } r hA hlt hq]
          simp
      · left
        refine ⟨hge, ?_, ?_⟩
        · simp only [flushPendingFollowUps, hQ]
          rw [maybeRespond_free now { s with pendingFollowUps := rest } r hA hge]
        · simp only [flushPendingFollowUps, hQ]
          rw [maybeRespond_free now { s with pendingFollowUps := rest } r hA hge]
          simp

/-- Session for the C3 witness: one queued follow-up, gate open, channel
idle. -/
def exC3 : CallSession :=
  { initialSession "w3" with pendingFollowUps := [toolErrorRequest] }

/-- C3 witness for the amended theorem: a gate-open flush releases the
queued front request. -/
theorem c3_witness :
    respondReqs (flushPendingFollowUps 5 exC3).2 = [toolErrorRequest] ∧
    sentCreates (flushPendingFollowUps 5 exC3).2 = [toolErrorInstructions] := by
  have h := c3_flush_front_and_gate_amended.2 5 exC3 toolErrorRequest [] rfl rfl rfl
  refine ⟨h.1, ?_⟩
  rcases h.2 with ⟨-, -, hs⟩ | ⟨hlt, -, -⟩
  · exact hs
  · cases (Nat.not_lt.mpr (Nat.zero_le 5)) hlt

/-! ## Per-handler core facts (frame lemmas feeding the trace invariants) -/

theorem cancelActiveResponses_core (s : CallSession) :
    (cancelActiveResponses s).1.pendingTools = s.pendingTools ∧
    (cancelActiveResponses s).1.heardUser = s.heardUser ∧
    (cancelActiveResponses s).1.greeted = s.greeted ∧
    (cancelActiveResponses s).1.pendingFollowUps = s.pendingFollowUps ∧
    dispatchesOf (cancelActiveResponses s).2 = [] ∧
    respondReqs (cancelActiveResponses s).2 = [] := by
  unfold cancelActiveResponses
  split <;> simp [dispatchesOf_cancelList, respondReqs_cancelList]

theorem handleSpeechStarted_core (now : Nat) (s : CallSession) :
    (handleSpeechStarted now s).1.pendingTools = s.pendingTools ∧
    (handleSpeechStarted now s).1.heardUser = s.heardUser ∧
    (handleSpeechStarted now s).1.greeted = s.greeted ∧
    (handleSpeechStarted now s).1.pendingFollowUps = s.pendingFollowUps ∧
    dispatchesOf (handleSpeechStarted now s).2 = [] ∧
    respondReqs (handleSpeechStarted now s).2 = [] := by
  have hc := cancelActiveResponses_core { s with userSpeaking := true }
  simp only [handleSpeechStarted]
  split
  · simp
  · split
    · simp only []
      refine ⟨hc.1, hc.2.1, hc.2.2.1, hc.2.2.2.1, ?_, ?_⟩
      · rw [dispatchesOf_append, hc.2.2.2.2.1]; rfl
      · rw [respondReqs_append, hc.2.2.2.2.2]; rfl
    · exact hc

theorem handleSpeechStopped_core (s : CallSession) :
    (handleSpeechStopped s).1.pendingTools = s.pendingTools ∧
    (handleSpeechStopped s).1.heardUser = s.heardUser ∧
    (handleSpeechStopped s).1.greeted = s.greeted ∧
    (handleSpeechStopped s).1.pendingFollowUps = s.pendingFollowUps ∧
    dispatchesOf (handleSpeechStopped s).2 = [] ∧
    respondReqs (handleSpeechStopped s).2 = [] := by
  simp only [handleSpeechStopped]
  split
  · split
    · split <;> simp
    · simp
  · simp

theorem handleRealtimeError_core (env : Env) (s : CallSession) (e : RTEvent) :
    (handleRealtimeError env s e).1 = s ∧
    dispatchesOf (handleRealtimeError env s e).2 = [] ∧
    respondReqs (handleRealtimeError env s e).2 = [] := by
  unfold handleRealtimeError
  split
  · split
    · split <;> simp
    · simp
  · simp

theorem logResponseTextDelta_core (s : CallSession) (e : RTEvent) :
    (logResponseTextDelta s e).1.pendingTools = s.pendingTools ∧
    (logResponseTextDelta s e).1.heardUser = s.heardUser ∧
    (logResponseTextDelta s e).1.greeted = s.greeted ∧
    (logResponseTextDelta s e).1.pendingFollowUps = s.pendingFollowUps ∧
    (logResponseTextDelta s e).2 = [] := by
  unfold logResponseTextDelta
  split <;> simp

theorem handleAssistantTranscriptDelta_core (s : CallSession) (e : RTEvent) :
    (handleAssistantTranscriptDelta s e).1.pendingTools = s.pendingTools ∧
    (handleAssistantTranscriptDelta s e).1.heardUser = s.heardUser ∧
    (handleAssistantTranscriptDelta s e).1.greeted = s.greeted ∧
    (handleAssistantTranscriptDelta s e).1.pendingFollowUps = s.pendingFollowUps ∧
    (handleAssistantTranscriptDelta s e).2 = [] := by
  unfold handleAssistantTranscriptDelta
  split <;> simp

theorem handleAssistantTranscriptDone_core (s : CallSession) (e : RTEvent) :
    (handleAssistantTranscriptDone s e).1.pendingTools = s.pendingTools ∧
    (handleAssistantTranscriptDone s e).1.heardUser = s.heardUser ∧
    (handleAssistantTranscriptDone s e).1.greeted = s.greeted ∧
    (handleAssistantTranscriptDone s e).1.pendingFollowUps = s.pendingFollowUps ∧
    (handleAssistantTranscriptDone s e).2 = [] := by
  simp only [handleAssistantTranscriptDone]
  split
  · simp
  · split <;> simp

theorem unlockTools_core (s : CallSession) :
    (unlockTools s).1.pendingTools = s.pendingTools ∧
    (unlockTools s).1.heardUser = s.heardUser ∧
    (unlockTools s).1.greeted = s.greeted ∧
    (unlockTools s).1.pendingFollowUps = s.pendingFollowUps ∧
    dispatchesOf (unlockTools s).2 = [] ∧
    respondReqs (unlockTools s).2 = [] := by
  unfold unlockTools
  split <;> simp

theorem handleConversationItem_core (s : CallSession) (e : RTEvent) :
    (handleConversationItem s e).1.pendingTools = s.pendingTools ∧
    ((handleConversationItem s e).1.heardUser = s.heardUser ∨
      (handleConversationItem s e).1.heardUser = true) ∧
    (handleConversationItem s e).1.greeted = s.greeted ∧
    (handleConversationItem s e).1.pendingFollowUps = s.pendingFollowUps ∧
    dispatchesOf (handleConversationItem s e).2 = [] ∧
    respondReqs (handleConversationItem s e).2 = [] := by
  unfold handleConversationItem
  split
  · simp
  · split
    · have hu := unlockTools_core { s with heardUser := true, bargeGuardUntil := 0 }
      exact ⟨hu.1, Or.inr hu.2.1, hu.2.2.1, hu.2.2.2.1, hu.2.2.2.2.1, hu.2.2.2.2.2⟩
    · simp

theorem logInputTranscript_core (s : CallSession) (e : RTEvent) :
    (logInputTranscript s e).1.pendingTools = s.pendingTools ∧
    ((logInputTranscript s e).1.heardUser = s.heardUser ∨
      (logInputTranscript s e).1.heardUser = true) ∧
    (logInputTranscript s e).1.greeted = s.greeted ∧
    (logInputTranscript s e).1.pendingFollowUps = s.pendingFollowUps ∧
    dispatchesOf (logInputTranscript s e).2 = [] ∧
    respondReqs (logInputTranscript s e).2 = [] := by
  unfold logInputTranscript
  split
  · simp
  · split
    · have hu := unlockTools_core { s with heardUser := true, bargeGuardUntil := 0 }
      exact ⟨hu.1, Or.inr hu.2.1, hu.2.2.1, hu.2.2.2.1, hu.2.2.2.2.1, hu.2.2.2.2.2⟩
    · simp

theorem registerFunctionCall_core (s : CallSession) (e : RTEvent) :
    (registerFunctionCall s e).1.heardUser = s.heardUser ∧
    (registerFunctionCall s e).1.greeted = s.greeted ∧
    (registerFunctionCall s e).1.pendingFollowUps = s.pendingFollowUps ∧
    dispatchesOf (registerFunctionCall s e).2 = [] ∧
    respondReqs (registerFunctionCall s e).2 = [] ∧
    (s.heardUser = false → (registerFunctionCall s e).1.pendingTools = s.pendingTools) := by
  unfold registerFunctionCall
  split
  · simp
  · split
    · split
      · split <;> simp
      · next hh =>
        exact ⟨rfl, rfl, rfl, rfl, rfl, fun hfalse => absurd hfalse hh⟩
    · simp

theorem collectToolArgs_core (s : CallSession) (e : RTEvent) :
    (collectToolArgs s e).1.heardUser = s.heardUser ∧
    (collectToolArgs s e).1.greeted = s.greeted ∧
    (collectToolArgs s e).1.pendingFollowUps = s.pendingFollowUps ∧
    (collectToolArgs s e).2 = [] ∧
    (s.pendingTools = [] → (collectToolArgs s e).1.pendingTools = s.pendingTools) := by
  unfold collectToolArgs
  split
  · simp
  · split
    · simp
    · split
      · simp
      · exact ⟨rfl, rfl, rfl, rfl, fun hpt => by rw [hpt]; rfl⟩

theorem fulfillToolCall_of_no_pending (env : Env) (now : Nat) (s : CallSession) (e : RTEvent)
    (h : ∀ itemId, truthy e.item_id = some itemId → getEntry itemId s.pendingTools = none) :
    fulfillToolCall env now s e = (s, []) := by
  unfold fulfillToolCall
  cases hi : truthy e.item_id with
  | none => rfl
  | some itemId => simp only [h itemId hi]

theorem fulfillToolCall_core (env : Env) (now : Nat) (s : CallSession) (e : RTEvent) :
    (fulfillToolCall env now s e).1.heardUser = s.heardUser ∧
    (fulfillToolCall env now s e).1.greeted = s.greeted ∧
    (s.pendingTools = [] → fulfillToolCall env now s e = (s, [])) := by
  refine ⟨?_, ?_, ?_⟩
  · simp only [fulfillToolCall]
    split
    · rfl
    · split
      · rfl
      · split
        · exact ((maybeRespond_state_facts now _ _).2.1 : _)
        · exact ((maybeRespond_state_facts now _ _).2.1 : _)
  · simp only [fulfillToolCall]
    split
    · rfl
    · split
      · rfl
      · split
        · exact ((maybeRespond_state_facts now _ _).2.2.1 : _)
        · exact ((maybeRespond_state_facts now _ _).2.2.1 : _)
  · intro hpt
    refine fulfillToolCall_of_no_pending env now s e ?_
    intro itemId _
    rw [hpt]
    rfl

theorem flushPendingFollowUps_core (now : Nat) (s : CallSession) :
    (flushPendingFollowUps now s).1.pendingTools = s.pendingTools ∧
    (flushPendingFollowUps now s).1.heardUser = s.heardUser ∧
    (flushPendingFollowUps now s).1.greeted = s.greeted ∧
    dispatchesOf (flushPendingFollowUps now s).2 = [] := by
  unfold flushPendingFollowUps
  split
  · simp
  · next r rest heq =>
    have hm := maybeRespond_state_facts now { s with pendingFollowUps := rest } r
    exact ⟨hm.1, hm.2.1, hm.2.2.1, hm.2.2.2.2.1⟩

theorem updateResponseLifecycle_core (now : Nat) (s : CallSession) (e : RTEvent) (b : Bool) :
    (updateResponseLifecycle now s e b).1.pendingTools = s.pendingTools ∧
    (updateResponseLifecycle now s e b).1.heardUser = s.heardUser ∧
    (updateResponseLifecycle now s e b).1.greeted = s.greeted ∧
    dispatchesOf (updateResponseLifecycle now s e b).2 = [] := by
  simp only [updateResponseLifecycle]
  split
  · simp
  · split
    · simp
    · split
      · exact flushPendingFollowUps_core now _
      · simp

theorem handleWsOpen_core (env : Env) (now : Nat) (s : CallSession) :
    (handleWsOpen env now s).1.pendingTools = s.pendingTools ∧
    (handleWsOpen env now s).1.heardUser = s.heardUser ∧
    dispatchesOf (handleWsOpen env now s).2 = [] := by
  simp only [handleWsOpen]
  split
  · have hm := maybeRespond_state_facts now s
      { instructions := greetingInstructions env, source := "greeting" }
    refine ⟨hm.1, hm.2.1, ?_⟩
    rw [dispatchesOf_append, hm.2.2.2.2.1]
    rfl
  · simp

theorem handleTurnTimerFire_core (now : Nat) (s : CallSession) :
    (handleTurnTimerFire now s).1.pendingTools = s.pendingTools ∧
    (handleTurnTimerFire now s).1.heardUser = s.heardUser ∧
    (handleTurnTimerFire now s).1.greeted = s.greeted ∧
    dispatchesOf (handleTurnTimerFire now s).2 = [] := by
  unfold handleTurnTimerFire requestTurnResponse
  split
  · have hm := maybeRespond_state_facts now { s with pendingTurnTimer := false }
      { instructions := turnResponseInstructions, source := "turn_response" }
    exact ⟨hm.1, hm.2.1, hm.2.2.1, hm.2.2.2.2.1⟩
  · simp

/-! ## Claim C1 — no tool dispatch before the caller has been heard -/

/-- The gating invariant: while the caller has never been heard, no pending
tool entry exists (so no completion can dispatch). -/
def heardInv (s : CallSession) : Prop :=
  s.heardUser = false → s.pendingTools = []

theorem heard_of_frame {s : CallSession} {p : CallSession × List Trace}
    (hpt : p.1.pendingTools = s.pendingTools) (hhu : p.1.heardUser = s.heardUser)
    (hd : dispatchesOf p.2 = []) (h : heardInv s) :
    heardInv p.1 ∧ (s.heardUser = false → dispatchesOf p.2 = []) := by
  refine ⟨fun hh => ?_, fun _ => hd⟩
  rw [hpt]
  exact h (by rw [← hhu]; exact hh)

theorem heard_of_latch {s : CallSession} {p : CallSession × List Trace}
    (hpt : p.1.pendingTools = s.pendingTools)
    (hhu : p.1.heardUser = s.heardUser ∨ p.1.heardUser = true)
    (hd : dispatchesOf p.2 = []) (h : heardInv s) :
    heardInv p.1 ∧ (s.heardUser = false → dispatchesOf p.2 = []) := by
  refine ⟨fun hh => ?_, fun _ => hd⟩
  rw [hpt]
  rcases hhu with he | ht
  · exact h (by rw [← he]; exact hh)
  · rw [ht] at hh; cases hh

theorem sessionStep_heard (env : Env) (now : Nat) (s : CallSession) (ev : SessionEvent)
    (h : heardInv s) :
    heardInv (sessionStep env now s ev).1 ∧
    (s.heardUser = false → dispatchesOf (sessionStep env now s ev).2 = []) := by
  cases ev with
  | wsOpen =>
    have hc := handleWsOpen_core env now s
    exact heard_of_frame hc.1 hc.2.1 hc.2.2 h
  | turnTimerFire =>
    have hc := handleTurnTimerFire_core now s
    exact heard_of_frame hc.1 hc.2.1 hc.2.2.2 h
  | rtEvent e =>
    simp only [sessionStep, routeRealtimeEvent]
    split
    · have hc := updateResponseLifecycle_core now s e true
      exact heard_of_frame hc.1 hc.2.1 hc.2.2.2 h
    · have hc := updateResponseLifecycle_core now s e false
      exact heard_of_frame hc.1 hc.2.1 hc.2.2.2 h
    · have hc := updateResponseLifecycle_core now s e false
      exact heard_of_frame hc.1 hc.2.1 hc.2.2.2 h
    · have hc := logResponseTextDelta_core s e
      exact heard_of_frame hc.1 hc.2.1 (by rw [hc.2.2.2.2]; rfl) h
    · exact heard_of_frame rfl rfl rfl h
    · have hc := handleAssistantTranscriptDelta_core s e
      exact heard_of_frame hc.1 hc.2.1 (by rw [hc.2.2.2.2]; rfl) h
    · have hc := handleAssistantTranscriptDone_core s e
      exact heard_of_frame hc.1 hc.2.1 (by rw [hc.2.2.2.2]; rfl) h
    · have hc := handleAssistantTranscriptDelta_core s e
      exact heard_of_frame hc.1 hc.2.1 (by rw [hc.2.2.2.2]; rfl) h
    · have hc := handleAssistantTranscriptDone_core s e
      exact heard_of_frame hc.1 hc.2.1 (by rw [hc.2.2.2.2]; rfl) h
    · exact heard_of_frame rfl rfl rfl h
    · have hc := handleConversationItem_core s e
      exact heard_of_latch hc.1 hc.2.1 hc.2.2.2.2.1 h
    · have hc := handleConversationItem_core s e
      exact heard_of_latch hc.1 hc.2.1 hc.2.2.2.2.1 h
    · have hc := handleConversationItem_core s e
      exact heard_of_latch hc.1 hc.2.1 hc.2.2.2.2.1 h
    · have hc := handleConversationItem_core s e
      exact heard_of_latch hc.1 hc.2.1 hc.2.2.2.2.1 h
    · have hc := registerFunctionCall_core s e
      refine ⟨fun hh => ?_, fun hh => hc.2.2.2.1⟩
      rw [hc.2.2.2.2.2 (by rw [← hc.1]; exact hh)]
      exact h (by rw [← hc.1]; exact hh)
    · have hc := collectToolArgs_core s e
      refine ⟨fun hh => ?_, fun hh => by rw [hc.2.2.2.1]; rfl⟩
      have hs : s.heardUser = false := by rw [← hc.1]; exact hh
      rw [hc.2.2.2.2 (h hs)]
      exact h hs
    · have hc := fulfillToolCall_core env now s e
      constructor
      · intro hh
        have hs : s.heardUser = false := by rw [← hc.1]; exact hh
        rw [hc.2.2 (h hs)]
        exact h hs
      · intro hh
        rw [hc.2.2 (h hh)]
        rfl
    · have hc := logInputTranscript_core s e
      exact heard_of_latch hc.1 hc.2.1 hc.2.2.2.2.1 h
    · exact heard_of_frame rfl rfl rfl h
    · have hc := logInputTranscript_core s e
      exact heard_of_latch hc.1 hc.2.1 hc.2.2.2.2.1 h
    · exact heard_of_frame rfl rfl rfl h
    · have hc := handleSpeechStarted_core now s
      exact heard_of_frame hc.1 hc.2.1 hc.2.2.2.2.1 h
    · have hc := handleSpeechStopped_core s
      exact heard_of_frame hc.1 hc.2.1 hc.2.2.2.2.1 h
    · have hc := handleRealtimeError_core env s e
      exact heard_of_frame (by rw [hc.1]) (by rw [hc.1]) hc.2.1 h
    · exact heard_of_frame rfl rfl rfl h

theorem runTrace_heard (env : Env) (evts : List (Nat × SessionEvent)) :
    ∀ (s0 : CallSession), heardInv s0 →
      ∀ (i : Nat) (s : CallSession) (tr : List Trace),
        (runTrace env s0 evts)[i]? = some (s, tr) →
        s.heardUser = false → dispatchesOf tr = [] := by
  induction evts with
  | nil =>
    intro s0 _ i s tr hget
    simp [runTrace] at hget
  | cons p rest ih =>
    intro s0 h0 i s tr hget
    obtain ⟨now, ev⟩ := p
    cases i with
    | zero =>
      simp only [runTrace, List.getElem?_cons_zero, Option.some.injEq] at hget
      obtain ⟨hs, htr⟩ := Prod.mk.injEq .. ▸ hget
      intro hh
      rw [← htr]
      exact (sessionStep_heard env now s0 ev h0).2 (by rw [hs]; exact hh)
    | succ i =>
      simp only [runTrace, List.getElem?_cons_succ] at hget
      exact ih (sessionStep env now s0 ev).1 (sessionStep_heard env now s0 ev h0).1 i s tr hget

/-- C1: over any inbound event sequence, no tool call is dispatched at a step
whose pre-state has `heardUser = false`; a `function_call` item announced
while `heardUser` is false is refused — the owning response is cancelled
(and removed from the active set) when a response id is present, no
pending-tool entry is created either way — and a tool-call completion
dispatches only when a pending-tool entry exists (otherwise it is a no-op). -/
theorem c1_no_tool_dispatch_before_heard_user :
    (∀ (env : Env) (cid : String) (evts : List (Nat × SessionEvent)) (i : Nat)
      (s : CallSession) (tr : List Trace),
      (runTrace env (initialSession cid) evts)[i]? = some (s, tr) →
      s.heardUser = false → dispatchesOf tr = []) ∧
    (∀ (s : CallSession) (e : RTEvent) (item : ItemRec) (itemId name : String),
      s.heardUser = false → e.item = some item → item.type = some "function_call" →
      truthy item.id = some itemId → truthy item.name = some name →
      (registerFunctionCall s e).1.pendingTools = s.pendingTools ∧
      (∀ rid, truthy e.response_id = some rid →
        registerFunctionCall s e =
          ({ s with activeResponses := setRemove rid s.activeResponses },
            [Trace.send (WsMsg.responseCancel rid)])) ∧
      (truthy e.response_id = none → registerFunctionCall s e = (s, []))) ∧
    (∀ (env : Env) (now : Nat) (s : CallSession) (e : RTEvent) (itemId : String),
      truthy e.item_id = some itemId → getEntry itemId s.pendingTools = none →
      fulfillToolCall env now s e = (s, [])) := by
  refine ⟨?_, ?_, ?_⟩
  · intro env cid evts i s tr hget
    exact runTrace_heard env evts (initialSession cid) (fun _ => rfl) i s tr hget
  · intro s e item itemId name hheard hitem htype hid hname
    refine ⟨?_, ?_, ?_⟩
    · simp only [registerFunctionCall, hitem, htype, hid, hname, hheard, if_true]
      split <;> rfl
    · intro rid hrid
      simp only [registerFunctionCall, hitem, htype, hid, hname, hheard, if_true, hrid]
    · intro hrid
      simp only [registerFunctionCall, hitem, htype, hid, hname, hheard, if_true, hrid]
  · intro env now s e itemId hi hpending
    refine fulfillToolCall_of_no_pending env now s e ?_
    intro itemId' hi'
    have heq : itemId' = itemId := by
      rw [hi] at hi'
      exact (Option.some.inj hi').symm
    rw [heq]
    exact hpending

/-- C1 witness: the opening step of a fresh session (caller never heard)
dispatches nothing, and an arguments-done event with no pending entry is a
no-op. -/
theorem c1_witness :
    dispatchesOf (sessionStep env0 0 (initialSession "w1") SessionEvent.wsOpen).2 = [] ∧
    fulfillToolCall env0 0 (initialSession "w1") eC4 = (initialSession "w1", []) := by
  constructor
  · exact c1_no_tool_dispatch_before_heard_user.1 env0 "w1" [(0, SessionEvent.wsOpen)] 0
      (initialSession "w1") (sessionStep env0 0 (initialSession "w1") SessionEvent.wsOpen).2
      rfl rfl
  · exact c1_no_tool_dispatch_before_heard_user.2.2 env0 0 (initialSession "w1") eC4 "i9" rfl rfl

/-! ## Claim C6 — the greeting is requested at most once -/

/-- 1 while the greeting is still owed, 0 once `greeted` is latched. -/
def gval (s : CallSession) : Nat :=
  if s.greeted = true then 0 else 1

/-- No queued follow-up is a greeting request (greeting requests are never
queued: they are not `queueIfBlocked`). -/
def queueInv (s : CallSession) : Prop :=
  ∀ r ∈ s.pendingFollowUps, r.source ≠ "greeting"

theorem greetingReqCount_eq (tr : List Trace) :
    greetingReqCount tr = (respondReqs tr).countP fun r => r.source == "greeting" := rfl

@[simp]
theorem greetingReqCount_cons_send (m : WsMsg) (tr : List Trace) :
    greetingReqCount (Trace.send m :: tr) = greetingReqCount tr := rfl

@[simp]
theorem greetingReqCount_cons_dispatch (i n : String) (a : Json) (tr : List Trace) :
    greetingReqCount (Trace.dispatch i n a :: tr) = greetingReqCount tr := rfl

theorem maybeRespond_greet (now : Nat) (s : CallSession) (r : ResponseRequest)
    (hq : queueInv s) (hr : r.source ≠ "greeting") :
    queueInv (maybeRespond now s r).1 ∧
    greetingReqCount (maybeRespond now s r).2 = 0 ∧
    (maybeRespond now s r).1.greeted = s.greeted := by
  have hm := maybeRespond_state_facts now s r
  refine ⟨?_, ?_, hm.2.2.1⟩
  · rcases maybeRespond_queue_cases now s r with hc | hc
    · intro x hx
      rw [hc] at hx
      exact hq x hx
    · intro x hx
      rw [hc] at hx
      rcases List.mem_append.mp hx with hx | hx
      · exact hq x hx
      · have hx1 := List.mem_singleton.mp hx
        rw [hx1]
        exact hr
  · rw [greetingReqCount_eq, hm.2.2.2.2.2]
    simp [List.countP_cons, hr]

theorem flushPendingFollowUps_greet (now : Nat) (s : CallSession) (hq : queueInv s) :
    queueInv (flushPendingFollowUps now s).1 ∧
    greetingReqCount (flushPendingFollowUps now s).2 = 0 ∧
    (flushPendingFollowUps now s).1.greeted = s.greeted := by
  unfold flushPendingFollowUps
  split
  · exact ⟨hq, rfl, rfl⟩
  · next r rest heq =>
    have hq' : queueInv { s with pendingFollowUps := rest } := by
      intro x hx
      exact hq x (by rw [heq]; exact List.mem_cons_of_mem _ hx)
    have hr : r.source ≠ "greeting" := hq r (by rw [heq]; exact List.mem_cons_self ..)
    exact maybeRespond_greet now { s with pendingFollowUps := rest } r hq' hr

theorem updateResponseLifecycle_greet (now : Nat) (s : CallSession) (e : RTEvent)
    (b : Bool) (hq : queueInv s) :
    queueInv (updateResponseLifecycle now s e b).1 ∧
    greetingReqCount (updateResponseLifecycle now s e b).2 = 0 ∧
    (updateResponseLifecycle now s e b).1.greeted = s.greeted := by
  simp only [updateResponseLifecycle]
  split
  · exact ⟨hq, rfl, rfl⟩
  · split
    · exact ⟨fun x hx => hq x hx, rfl, rfl⟩
    · split
      · exact flushPendingFollowUps_greet now _ (fun x hx => hq x hx)
      · exact ⟨fun x hx => hq x hx, rfl, rfl⟩

theorem fulfillToolCall_greet (env : Env) (now : Nat) (s : CallSession) (e : RTEvent)
    (hq : queueInv s) :
    queueInv (fulfillToolCall env now s e).1 ∧
    greetingReqCount (fulfillToolCall env now s e).2 + gval (fulfillToolCall env now s e).1 ≤ gval s := by
  cases hi : truthy e.item_id with
  | none =>
    simp only [fulfillToolCall, hi]
    exact ⟨hq, by simp [greetingReqCount, respondReqs, gval]⟩
  | some itemId =>
    cases hp : getEntry itemId s.pendingTools with
    | none =>
      simp only [fulfillToolCall, hi, hp]
      exact ⟨hq, by simp [greetingReqCount, respondReqs, gval]⟩
    | some pending =>
      cases hrt : env.runTool pending.name
          (parseArgsPayload env.parseJson (e.arguments.getD pending.argsBuffer)) with
      | ok result =>
        simp only [fulfillToolCall, hi, hp, hrt]
        have hmg := maybeRespond_greet now
          ({ s with pendingTools := removeKey itemId s.pendingTools } : CallSession)
          { instructions := result.followUpInstructions.getD
              (defaultToolFollowUp pending.name result.output),
            source := "tool_follow_up_success", queueIfBlocked := true }
          (fun x hx => hq x hx)
          (show ("tool_follow_up_success" : String) ≠ "greeting" by decide)
        refine ⟨hmg.1, ?_⟩
        cases hc : truthy e.call_id <;>
          · simp only [hc, greetingReqCount_cons_dispatch, List.singleton_append,
              List.nil_append, greetingReqCount_cons_send, hmg.2.1, Nat.zero_add]
            simp [gval, hmg.2.2]
      | error msg =>
        simp only [fulfillToolCall, hi, hp, hrt]
        have hmg := maybeRespond_greet now
          ({ s with pendingTools := removeKey itemId s.pendingTools } : CallSession)
          { instructions := toolErrorInstructions, source := "tool_follow_up_error",
            queueIfBlocked := true }
          (fun x hx => hq x hx)
          (show ("tool_follow_up_error" : String) ≠ "greeting" by decide)
        refine ⟨hmg.1, ?_⟩
        simp only [greetingReqCount_cons_dispatch, hmg.2.1, Nat.zero_add]
        simp [gval, hmg.2.2]

theorem greet_of_frame {s : CallSession} {p : CallSession × List Trace}
    (hqueue : p.1.pendingFollowUps = s.pendingFollowUps)
    (hgreet : p.1.greeted = s.greeted)
    (hreq : respondReqs p.2 = []) (hq : queueInv s) :
    queueInv p.1 ∧ greetingReqCount p.2 + gval p.1 ≤ gval s := by
  refine ⟨fun x hx => hq x (by rw [← hqueue]; exact hx), ?_⟩
  rw [greetingReqCount_eq, hreq]
  simp [gval, hgreet]

theorem greet_of_zero {s : CallSession} {p : CallSession × List Trace}
    (hqi : queueInv p.1) (hcount : greetingReqCount p.2 = 0)
    (hgreet : p.1.greeted = s.greeted) :
    queueInv p.1 ∧ greetingReqCount p.2 + gval p.1 ≤ gval s := by
  refine ⟨hqi, ?_⟩
  rw [hcount]
  simp [gval, hgreet]

theorem sessionStep_greet (env : Env) (now : Nat) (s : CallSession) (ev : SessionEvent)
    (hq : queueInv s) :
    queueInv (sessionStep env now s ev).1 ∧
    greetingReqCount (sessionStep env now s ev).2 + gval (sessionStep env now s ev).1 ≤ gval s := by
  cases ev with
  | wsOpen =>
    simp only [sessionStep, handleWsOpen]
    split
    · next hg =>
      have hm := maybeRespond_state_facts now s
        { instructions := greetingInstructions env, source := "greeting" }
      have hqm := maybeRespond_queue_of_unqueued now s
        { instructions := greetingInstructions env, source := "greeting" } rfl
      constructor
      · intro x hx
        exact hq x (by rw [← hqm]; exact hx)
      · have hcount : greetingReqCount
            (Trace.send (WsMsg.sessionUpdate (SessionPatch.initialConfig env.voice)) ::
              (maybeRespond now s
                { instructions := greetingInstructions env, source := "greeting" }).2) = 1 := by
          rw [greetingReqCount_cons_send, greetingReqCount_eq, hm.2.2.2.2.2]
          simp [List.countP_cons]
        rw [List.singleton_append] at *
        rw [hcount]
        simp [gval, hg]
    · next hg =>
      refine ⟨fun x hx => hq x hx, ?_⟩
      have hz : greetingReqCount
          [Trace.send (WsMsg.sessionUpdate (SessionPatch.initialConfig env.voice))] = 0 := rfl
      rw [hz]
      simp [gval]
  | turnTimerFire =>
    simp only [sessionStep, handleTurnTimerFire, requestTurnResponse]
    split
    · have hmg := maybeRespond_greet now { s with pendingTurnTimer := false }
        { instructions := turnResponseInstructions, source := "turn_response" }
        (fun x hx => hq x hx)
        (show ("turn_response" : String) ≠ "greeting" by decide)
      exact greet_of_zero hmg.1 hmg.2.1 hmg.2.2
    · exact greet_of_frame rfl rfl rfl hq
  | rtEvent e =>
    simp only [sessionStep, routeRealtimeEvent]
    split
    · have hg := updateResponseLifecycle_greet now s e true hq
      exact greet_of_zero hg.1 hg.2.1 hg.2.2
    · have hg := updateResponseLifecycle_greet now s e false hq
      exact greet_of_zero hg.1 hg.2.1 hg.2.2
    · have hg := updateResponseLifecycle_greet now s e false hq
      exact greet_of_zero hg.1 hg.2.1 hg.2.2
    · have hc := logResponseTextDelta_core s e
      exact greet_of_frame hc.2.2.2.1 hc.2.2.1 (by rw [hc.2.2.2.2]; rfl) hq
    · exact greet_of_frame rfl rfl rfl hq
    · have hc := handleAssistantTranscriptDelta_core s e
      exact greet_of_frame hc.2.2.2.1 hc.2.2.1 (by rw [hc.2.2.2.2]; rfl) hq
    · have hc := handleAssistantTranscriptDone_core s e
      exact greet_of_frame hc.2.2.2.1 hc.2.2.1 (by rw [hc.2.2.2.2]; rfl) hq
    · have hc := handleAssistantTranscriptDelta_core s e
      exact greet_of_frame hc.2.2.2.1 hc.2.2.1 (by rw [hc.2.2.2.2]; rfl) hq
    · have hc := handleAssistantTranscriptDone_core s e
      exact greet_of_frame hc.2.2.2.1 hc.2.2.1 (by rw [hc.2.2.2.2]; rfl) hq
    · exact greet_of_frame rfl rfl rfl hq
    · have hc := handleConversationItem_core s e
      exact greet_of_frame hc.2.2.2.1 hc.2.2.1 hc.2.2.2.2.2 hq
    · have hc := handleConversationItem_core s e
      exact greet_of_frame hc.2.2.2.1 hc.2.2.1 hc.2.2.2.2.2 hq
    · have hc := handleConversationItem_core s e
      exact greet_of_frame hc.2.2.2.1 hc.2.2.1 hc.2.2.2.2.2 hq
    · have hc := handleConversationItem_core s e
      exact greet_of_frame hc.2.2.2.1 hc.2.2.1 hc.2.2.2.2.2 hq
    · have hc := registerFunctionCall_core s e
      exact greet_of_frame hc.2.2.1 hc.2.1 hc.2.2.2.2.1 hq
    · have hc := collectToolArgs_core s e
      exact greet_of_frame hc.2.2.1 hc.2.1 (by rw [hc.2.2.2.1]; rfl) hq
    · exact fulfillToolCall_greet env now s e hq
    · have hc := logInputTranscript_core s e
      exact greet_of_frame hc.2.2.2.1 hc.2.2.1 hc.2.2.2.2.2 hq
    · exact greet_of_frame rfl rfl rfl hq
    · have hc := logInputTranscript_core s e
      exact greet_of_frame hc.2.2.2.1 hc.2.2.1 hc.2.2.2.2.2 hq
    · exact greet_of_frame rfl rfl rfl hq
    · have hc := handleSpeechStarted_core now s
      exact greet_of_frame hc.2.2.2.1 hc.2.2.1 hc.2.2.2.2.2 hq
    · have hc := handleSpeechStopped_core s
      exact greet_of_frame hc.2.2.2.1 hc.2.2.1 hc.2.2.2.2.2 hq
    · have hc := handleRealtimeError_core env s e
      exact greet_of_frame (by rw [hc.1]) (by rw [hc.1]) hc.2.2 hq
    · exact greet_of_frame rfl rfl rfl hq

theorem runSession_greet (env : Env) (evts : List (Nat × SessionEvent)) :
    ∀ s0 : CallSession, queueInv s0 →
      greetingReqCount (runSession env s0 evts).2 + gval (runSession env s0 evts).1 ≤ gval s0 := by
  induction evts with
  | nil =>
    intro s0 _
    simp [runSession, greetingReqCount, respondReqs]
  | cons p rest ih =>
    intro s0 h0
    obtain ⟨now, ev⟩ := p
    have hstep := sessionStep_greet env now s0 ev h0
    have hrest := ih (sessionStep env now s0 ev).1 hstep.1
    simp only [runSession, greetingReqCount_append]
    omega

/-- C6: over any event sequence from a fresh session — in particular across
channel open, any number of `session.updated` configuration acknowledgements
and all other events — the greeting response request is issued at most once
(`greeted` is a one-way latch, and greeting requests never enter the
follow-up queue). -/
theorem c6_greeting_requested_at_most_once
    (env : Env) (cid : String) (evts : List (Nat × SessionEvent)) :
    greetingReqCount (runSession env (initialSession cid) evts).2 ≤ 1 := by
  have h := runSession_greet env evts (initialSession cid)
    (fun x hx => absurd hx (List.not_mem_nil x))
  have hg : gval (initialSession cid) = 1 := rfl
  omega

/-! ## Claim C10 — each registered function-call item dispatches at most once -/

theorem dispCountFor_of_dispatches_nil (i : String) (tr : List Trace)
    (hd : dispatchesOf tr = []) : dispCountFor i tr = 0 := by
  induction tr with
  | nil => rfl
  | cons t rest ih =>
    cases t with
    | dispatch j n a => simp [dispatchesOf] at hd
    | send m => exact ih (by simpa using hd)
    | respondReq r => exact ih (by simpa using hd)
    | clearTurnTimer => exact ih (by simpa using hd)
    | scheduleTurnTimer => exact ih (by simpa using hd)

theorem disp_frame_eq {s : CallSession} {p : CallSession × List Trace} (i : String)
    (hpt : p.1.pendingTools = s.pendingTools) (hd : dispatchesOf p.2 = []) :
    dispCountFor i p.2 + pendingFlag i p.1 = pendingFlag i s := by
  rw [dispCountFor_of_dispatches_nil i p.2 hd, Nat.zero_add, pendingFlag, pendingFlag, hpt]

theorem disp_frame_le {s : CallSession} {p : CallSession × List Trace} (i : String)
    {n : Nat} (hpt : p.1.pendingTools = s.pendingTools) (hd : dispatchesOf p.2 = []) :
    dispCountFor i p.2 + pendingFlag i p.1 ≤ n + pendingFlag i s := by
  rw [disp_frame_eq i hpt hd]
  exact Nat.le_add_left _ _

theorem pendingFlag_updateKey (i k : String) (v : PendingToolCall)
    (l : List (String × PendingToolCall)) :
    (getEntry i (updateKey k v l)).isSome = (getEntry i l).isSome := by
  by_cases h : i = k
  · rw [h, getEntry_updateKey_self]
    cases getEntry k l <;> rfl
  · rw [getEntry_updateKey_ne k i v l h]

@[simp]
theorem dispCountFor_cons_send (i : String) (m : WsMsg) (tr : List Trace) :
    dispCountFor i (Trace.send m :: tr) = dispCountFor i tr := by
  simp [dispCountFor, List.countP_cons]

@[simp]
theorem dispCountFor_cons_dispatch (i j n : String) (a : Json) (tr : List Trace) :
    dispCountFor i (Trace.dispatch j n a :: tr) =
      dispCountFor i tr + (if j == i then 1 else 0) := by
  simp [dispCountFor, List.countP_cons]

@[simp]
theorem dispCountFor_cons_req (i : String) (r : ResponseRequest) (tr : List Trace) :
    dispCountFor i (Trace.respondReq r :: tr) = dispCountFor i tr := by
  simp [dispCountFor, List.countP_cons]

/-- The per-step dispatch bound: one step's dispatches for item `i` plus the
item's pending flag afterwards never exceed the registration indicator of the
event plus the flag beforehand. -/
theorem sessionStep_disp (env : Env) (now : Nat) (s : CallSession) (ev : SessionEvent)
    (i : String) :
    dispCountFor i (sessionStep env now s ev).2 + pendingFlag i (sessionStep env now s ev).1 ≤
      (if isRegEventFor i ev = true then 1 else 0) + pendingFlag i s := by
  cases ev with
  | wsOpen =>
    have hc := handleWsOpen_core env now s
    exact disp_frame_le i hc.1 hc.2.2
  | turnTimerFire =>
    have hc := handleTurnTimerFire_core now s
    exact disp_frame_le i hc.1 hc.2.2.2
  | rtEvent e =>
    simp only [sessionStep, routeRealtimeEvent]
    split
    · have hc := updateResponseLifecycle_core now s e true
      exact disp_frame_le i hc.1 hc.2.2.2
    · have hc := updateResponseLifecycle_core now s e false
      exact disp_frame_le i hc.1 hc.2.2.2
    · have hc := updateResponseLifecycle_core now s e false
      exact disp_frame_le i hc.1 hc.2.2.2
    · have hc := logResponseTextDelta_core s e
      rw [disp_frame_eq i hc.1 (by rw [hc.2.2.2.2]; rfl)]
      exact Nat.le_add_left _ _
    · exact disp_frame_le i rfl rfl
    · have hc := handleAssistantTranscriptDelta_core s e
      rw [disp_frame_eq i hc.1 (by rw [hc.2.2.2.2]; rfl)]
      exact Nat.le_add_left _ _
    · have hc := handleAssistantTranscriptDone_core s e
      rw [disp_frame_eq i hc.1 (by rw [hc.2.2.2.2]; rfl)]
      exact Nat.le_add_left _ _
    · have hc := handleAssistantTranscriptDelta_core s e
      rw [disp_frame_eq i hc.1 (by rw [hc.2.2.2.2]; rfl)]
      exact Nat.le_add_left _ _
    · have hc := handleAssistantTranscriptDone_core s e
      rw [disp_frame_eq i hc.1 (by rw [hc.2.2.2.2]; rfl)]
      exact Nat.le_add_left _ _
    · exact disp_frame_le i rfl rfl
    · have hc := handleConversationItem_core s e
      exact disp_frame_le i hc.1 hc.2.2.2.2.1
    · have hc := handleConversationItem_core s e
      exact disp_frame_le i hc.1 hc.2.2.2.2.1
    · have hc := handleConversationItem_core s e
      exact disp_frame_le i hc.1 hc.2.2.2.2.1
    · have hc := handleConversationItem_core s e
      exact disp_frame_le i hc.1 hc.2.2.2.2.1
    · next heqType =>
      unfold registerFunctionCall
      split
      · exact disp_frame_le i rfl rfl
      · next item heqItem =>
        split
        · next itemId name heqFC heqId heqName =>
          split
          · split
            · exact disp_frame_le i rfl rfl
            · exact disp_frame_le i rfl rfl
          · by_cases hii : i = itemId
            · have hreg : isRegEventFor i (SessionEvent.rtEvent e) = true := by
                simp [isRegEventFor, heqType, heqItem, heqFC, heqId, heqName, hii]
              rw [hreg, if_pos rfl]
              have hflag : pendingFlag i
                  ({ s with pendingTools := mapSet itemId { name := name, argsBuffer := "" } s.pendingTools } : CallSession) = 1 := by
                unfold pendingFlag
                rw [hii]
                simp only []
                rw [getEntry_mapSet_self]
                rfl
              have hz : dispCountFor i ([] : List Trace) = 0 := rfl
              rw [hz, hflag]
              omega
            · have hflag : pendingFlag i
                  ({ s with pendingTools := mapSet itemId { name := name, argsBuffer := "" } s.pendingTools } : CallSession) = pendingFlag i s := by
                unfold pendingFlag
                simp only []
                rw [getEntry_mapSet_ne itemId i _ s.pendingTools hii]
              have hz : dispCountFor i ([] : List Trace) = 0 := rfl
              rw [hz, hflag]
              omega
        · exact disp_frame_le i rfl rfl
    · unfold collectToolArgs
      split
      · exact disp_frame_le i rfl rfl
      · split
        · exact disp_frame_le i rfl rfl
        · split
          · exact disp_frame_le i rfl rfl
          · next pending delta heqD =>
            have hflag : ∀ (v : PendingToolCall) (k : String),
                pendingFlag i
                  ({ s with pendingTools := updateKey k v s.pendingTools } : CallSession) =
                pendingFlag i s := by
              intro v k
              unfold pendingFlag
              simp only []
              rw [pendingFlag_updateKey]
            have hz : dispCountFor i ([] : List Trace) = 0 := rfl
            rw [hz, hflag]
            omega
    · cases hi : truthy e.item_id with
      | none =>
        simp only [fulfillToolCall, hi]
        exact @disp_frame_le s (s, []) i _ rfl rfl
      | some itemId =>
        cases hp : getEntry itemId s.pendingTools with
        | none =>
          simp only [fulfillToolCall, hi, hp]
          exact @disp_frame_le s (s, []) i _ rfl rfl
        | some pending =>
          have hflagAfter : ∀ (r : ResponseRequest),
              pendingFlag i (maybeRespond now
                ({ s with pendingTools := removeKey itemId s.pendingTools } : CallSession) r).1 =
                if i = itemId then 0 else pendingFlag i s := by
            intro r
            have hs1 := (maybeRespond_state_facts now
              ({ s with pendingTools := removeKey itemId s.pendingTools } : CallSession) r).1
            unfold pendingFlag
            rw [hs1]
            by_cases hii : i = itemId
            · rw [if_pos hii]
              have hnone : getEntry i (removeKey itemId s.pendingTools) = none := by
                rw [hii]
                exact getEntry_removeKey_self itemId s.pendingTools
              simp [hnone]
            · rw [if_neg hii]
              simp only []
              rw [getEntry_removeKey_ne itemId i s.pendingTools hii]
          have hflagPre : (if i = itemId then 1 else pendingFlag i s) = pendingFlag i s := by
            by_cases hii : i = itemId
            · rw [if_pos hii]
              unfold pendingFlag
              rw [hii, hp]
              rfl
            · rw [if_neg hii]
          have hcd : ∀ (r : ResponseRequest),
              dispCountFor i (maybeRespond now
                ({ s with pendingTools := removeKey itemId s.pendingTools } : CallSession) r).2 = 0 :=
            fun r => dispCountFor_of_dispatches_nil i _ (dispatchesOf_maybeRespond now _ r)
          have hbeq : (itemId == i) = (if i = itemId then true else false) := by
            by_cases hii : i = itemId
            · simp [hii]
            · simp [hii]
              exact fun hh => hii hh.symm
          cases hrt : env.runTool pending.name
              (parseArgsPayload env.parseJson (e.arguments.getD pending.argsBuffer)) with
          | ok result =>
            simp only [fulfillToolCall, hi, hp, hrt]
            cases hc : truthy e.call_id <;>
              · simp only [hc, List.nil_append, List.singleton_append,
                  dispCountFor_cons_dispatch, dispCountFor_cons_send, hcd, hflagAfter, hbeq]
                rw [← hflagPre]
                by_cases hii : i = itemId <;> simp [hii]
          | error msg =>
            simp only [fulfillToolCall, hi, hp, hrt]
            simp only [dispCountFor_cons_dispatch, hcd, hflagAfter, hbeq]
            rw [← hflagPre]
            by_cases hii : i = itemId <;> simp [hii]
    · have hc := logInputTranscript_core s e
      exact disp_frame_le i hc.1 hc.2.2.2.2.1
    · exact disp_frame_le i rfl rfl
    · have hc := logInputTranscript_core s e
      exact disp_frame_le i hc.1 hc.2.2.2.2.1
    · exact disp_frame_le i rfl rfl
    · have hc := handleSpeechStarted_core now s
      exact disp_frame_le i hc.1 hc.2.2.2.2.1
    · have hc := handleSpeechStopped_core s
      exact disp_frame_le i hc.1 hc.2.2.2.2.1
    · have hc := handleRealtimeError_core env s e
      rw [disp_frame_eq i (by rw [hc.1]) hc.2.1]
      exact Nat.le_add_left _ _
    · exact disp_frame_le i rfl rfl

theorem runSession_disp (env : Env) (evts : List (Nat × SessionEvent)) :
    ∀ (s0 : CallSession) (i : String),
      dispCountFor i (runSession env s0 evts).2 + pendingFlag i (runSession env s0 evts).1 ≤
        regCountFor i evts + pendingFlag i s0 := by
  induction evts with
  | nil =>
    intro s0 i
    simp [runSession, regCountFor, dispCountFor]
  | cons p rest ih =>
    intro s0 i
    obtain ⟨now, ev⟩ := p
    have hstep := sessionStep_disp env now s0 ev i
    have hrest := ih (sessionStep env now s0 ev).1 i
    have hreg : regCountFor i ((now, ev) :: rest) =
        regCountFor i rest + (if isRegEventFor i ev = true then 1 else 0) := by
      simp [regCountFor, List.countP_cons]
    simp only [runSession, dispCountFor_append]
    omega

/-- C10: each registered function-call item is dispatched at most once — over
any run from a fresh session, the number of `runTool` dispatches for item `i`
never exceeds the number of announcements (registrations) of `i` in the event
sequence; and once (or while) no pending entry exists for an item, a
duplicate arguments-done event and any late argument-delta for it are
no-ops. -/
theorem c10_item_dispatched_at_most_once :
    (∀ (env : Env) (cid : String) (evts : List (Nat × SessionEvent)) (i : String),
      dispCountFor i (runSession env (initialSession cid) evts).2 ≤ regCountFor i evts) ∧
    (∀ (env : Env) (now : Nat) (s : CallSession) (e : RTEvent) (itemId : String),
      truthy e.item_id = some itemId → getEntry itemId s.pendingTools = none →
      fulfillToolCall env now s e = (s, []) ∧ collectToolArgs s e = (s, [])) := by
  constructor
  · intro env cid evts i
    have h := runSession_disp env evts (initialSession cid) i
    have hz : pendingFlag i (initialSession cid) = 0 := rfl
    omega
  · intro env now s e itemId hi hp
    constructor
    · refine fulfillToolCall_of_no_pending env now s e ?_
      intro itemId' hi'
      have heq : itemId' = itemId := by
        rw [hi] at hi'
        exact (Option.some.inj hi').symm
      rw [heq]
      exact hp
    · simp only [collectToolArgs, hi, hp]

/-- The arguments-done / delta event for the C10 witness item. -/
def eC10 : RTEvent :=
  { type := "response.function_call_arguments.done", item_id := some "iZ" }

/-- C10 witness: a duplicate completion (no pending entry) is a no-op, and a
run that never announces an item never dispatches it. -/
theorem c10_witness :
    fulfillToolCall env0 3 (initialSession "w10") eC10 = (initialSession "w10", []) ∧
    collectToolArgs (initialSession "w10") eC10 = (initialSession "w10", []) ∧
    dispCountFor "iZ" (runSession env0 (initialSession "w10") [(0, SessionEvent.wsOpen)]).2 ≤
      regCountFor "iZ" [(0, SessionEvent.wsOpen)] := by
  have h2 := c10_item_dispatched_at_most_once.2 env0 3 (initialSession "w10") eC10 "iZ" rfl rfl
  exact ⟨h2.1, h2.2,
    c10_item_dispatched_at_most_once.1 env0 "w10" [(0, SessionEvent.wsOpen)] "iZ"⟩

/-! ## Claim C9 — the call registry is single-writer, isolated per call -/

theorem registryKeys_updateKey (c : String) (v : CallSession) (st : ServerState) :
    registryKeys (updateKey c v st) = registryKeys st := by
  induction st with
  | nil => rfl
  | cons kv rest ih =>
    simp only [updateKey, registryKeys, List.map_cons] at ih ⊢
    by_cases h : kv.1 = c
    · rw [if_pos h, ih, h]
    · rw [if_neg h, ih]

theorem removeKey_idem (k : String) (l : List (String × α)) :
    removeKey k (removeKey k l) = removeKey k l := by
  induction l with
  | nil => rfl
  | cons kv rest ih =>
    by_cases h : kv.1 = k <;> simp [removeKey, h, ih]

/-- C9: the registry is mutated in exactly two places.  Delivering any
session event to a call changes no registry key (no insertion, no removal)
and leaves every other call's entry untouched (sessions are isolated);
channel-open of call `c` inserts exactly the fresh session for `c`, touching
no other entry; channel-close of `c` removes exactly `c`'s entry, touching no
other entry, and doing so is idempotent (a second close is a no-op, so the
removal happens once regardless of close cause). -/
theorem c9_registry_single_writer :
    (∀ (env : Env) (st : ServerState) (c : String) (now : Nat) (ev : SessionEvent),
      registryKeys (serverStep env st (ServerEvent.sessionEvt c now ev)).1 = registryKeys st ∧
      (∀ k, k ≠ c →
        getEntry k (serverStep env st (ServerEvent.sessionEvt c now ev)).1 = getEntry k st)) ∧
    (∀ (env : Env) (st : ServerState) (c : String),
      getEntry c (serverStep env st (ServerEvent.chanOpen c)).1 = some (initialSession c) ∧
      (∀ k, k ≠ c →
        getEntry k (serverStep env st (ServerEvent.chanOpen c)).1 = getEntry k st)) ∧
    (∀ (env : Env) (st : ServerState) (c : String),
      getEntry c (serverStep env st (ServerEvent.chanClose c)).1 = none ∧
      (∀ k, k ≠ c →
        getEntry k (serverStep env st (ServerEvent.chanClose c)).1 = getEntry k st) ∧
      (serverStep env (serverStep env st (ServerEvent.chanClose c)).1
          (ServerEvent.chanClose c)).1 =
        (serverStep env st (ServerEvent.chanClose c)).1) := by
  refine ⟨?_, ?_, ?_⟩
  · intro env st c now ev
    simp only [serverStep]
    cases hs : getEntry c st with
    | none => exact ⟨rfl, fun k _ => rfl⟩
    | some s =>
      constructor
      · exact registryKeys_updateKey c _ st
      · intro k hk
        exact getEntry_updateKey_ne c k _ st hk
  · intro env st c
    simp only [serverStep]
    exact ⟨getEntry_mapSet_self c _ st, fun k hk => getEntry_mapSet_ne c k _ st hk⟩
  · intro env st c
    simp only [serverStep]
    exact ⟨getEntry_removeKey_self c st, fun k hk => getEntry_removeKey_ne c k st hk,
      removeKey_idem c st⟩

/-- C9 witness: with calls `a` and `b` registered, an event for `a` leaves
`b`'s entry alone; closing `b` removes only `b`. -/
theorem c9_witness :
    getEntry "b" (serverStep env0 [("a", initialSession "a"), ("b", initialSession "b")]
      (ServerEvent.sessionEvt "a" 0 SessionEvent.wsOpen)).1 =
      getEntry "b" [("a", initialSession "a"), ("b", initialSession "b")] ∧
    getEntry "b" (serverStep env0 [("a", initialSession "a"), ("b", initialSession "b")]
      (ServerEvent.chanClose "b")).1 = none ∧
    getEntry "a" (serverStep env0 [("a", initialSession "a"), ("b", initialSession "b")]
      (ServerEvent.chanClose "b")).1 =
      getEntry "a" [("a", initialSession "a"), ("b", initialSession "b")] := by
  refine ⟨?_, ?_, ?_⟩
  · exact (c9_registry_single_writer.1 env0
      [("a", initialSession "a"), ("b", initialSession "b")] "a" 0 SessionEvent.wsOpen).2
      "b" (by decide)
  · exact (c9_registry_single_writer.2.2 env0
      [("a", initialSession "a"), ("b", initialSession "b")] "b").1
  · exact (c9_registry_single_writer.2.2 env0
      [("a", initialSession "a"), ("b", initialSession "b")] "b").2.1 "a" (by decide)
